import Mathlib

/-! minisphere: debugger codec, debugger command line, frame pacing, script runner,
build tool

A shallow embedding of
* the tagged wire values of the SSJ debugger with their codec, display, copy
  and release routines (`src/src/ssj/dvalue.c`),
* the command line of the debugger (`src/src/ssj/main.c`),
* the frame pacing of the engine (`src/minisphere/main.c`) and its script
  runner (`src/src/script.c`),
* the `Tool.build` binding of the build tool (`src/src/compiler/script.c`),

followed by the theorems that settle the specification's claims about them.

Conventions of the embedding:

* a byte is a `Nat` below 256; a socket's incoming side is the list of bytes
  the peer sends, its outgoing side the list of bytes written;
* `int` is a 32-bit two's-complement integer, held as an `Int` and wrapped by
  `wrap_int` where the C expression can leave the range;
* a `double` is held as its 64-bit IEEE-754 pattern; the code only moves its
  bytes around;
* the host is little-endian: byte `k` of an integer object `x` is
  `x / 256 ^ k % 256`;
* the members of the anonymous union in `struct dvalue` are separate fields,
  each zeroed by `calloc`; the code only ever reads the member its tag selects.
-/

namespace Ssj

/-! ## Data model -/

/-- Modelled from the spec: `enum dvalue_tag` is declared in `dvalue.h`, which is
not among the sources; the numeric values are those of the wire-format table. -/
abbrev DVALUE_EOM : Nat := 0x00
/-- Modelled from the spec: request class marker of the wire-format table. -/
abbrev DVALUE_REQ : Nat := 0x10
/-- Modelled from the spec: reply class marker of the wire-format table. -/
abbrev DVALUE_REP : Nat := 0x11
/-- Modelled from the spec: error class marker of the wire-format table. -/
abbrev DVALUE_ERR : Nat := 0x12
/-- Modelled from the spec: notification class marker of the wire-format table. -/
abbrev DVALUE_NFY : Nat := 0x13
/-- Modelled from the spec: tag byte of a long-form INT. -/
abbrev DVALUE_INT : Nat := 0x14
/-- Modelled from the spec: tag byte of a STRING with a 4-byte length. -/
abbrev DVALUE_STRING : Nat := 0x15
/-- Modelled from the spec: tag byte of a STRING with a 2-byte length. -/
abbrev DVALUE_STRING16 : Nat := 0x16
/-- Modelled from the spec: tag byte of a BUF with a 4-byte length. -/
abbrev DVALUE_BUF : Nat := 0x17
/-- Modelled from the spec: tag byte of a BUF with a 2-byte length. -/
abbrev DVALUE_BUF16 : Nat := 0x18
/-- Modelled from the spec: tag byte of UNUSED. -/
abbrev DVALUE_UNUSED : Nat := 0x19
/-- Modelled from the spec: tag byte of UNDEF. -/
abbrev DVALUE_UNDEF : Nat := 0x1A
/-- Modelled from the spec: tag byte of NULL. -/
abbrev DVALUE_NULL : Nat := 0x1B
/-- Modelled from the spec: tag byte of TRUE. -/
abbrev DVALUE_TRUE : Nat := 0x1C
/-- Modelled from the spec: tag byte of FALSE. -/
abbrev DVALUE_FALSE : Nat := 0x1D
/-- Modelled from the spec: tag byte of FLOAT. -/
abbrev DVALUE_FLOAT : Nat := 0x1E
/-- Modelled from the spec: tag byte of OBJ. -/
abbrev DVALUE_OBJ : Nat := 0x1F
/-- Modelled from the spec: tag byte of PTR. -/
abbrev DVALUE_PTR : Nat := 0x20
/-- Modelled from the spec: tag byte of LIGHTFUNC. -/
abbrev DVALUE_LIGHTFUNC : Nat := 0x21
/-- Modelled from the spec: tag byte of HEAPPTR. -/
abbrev DVALUE_HEAPPTR : Nat := 0x22

/-- Modelled from the spec: `dukptr_t` is declared in `dvalue.h`, which is not
among the sources. A pointer payload carries a numeric address (an integer
object of 8 bytes, wide enough for either target) and a byte width. -/
structure dukptr_t where
  addr : Nat
  size : Nat
deriving DecidableEq, Repr

/-- The `buffer` member of `struct dvalue`: the allocated bytes and the
declared size. `data = []` stands for the NULL pointer left by `calloc`. -/
structure buffer_t where
  data : List Nat
  size : Nat
deriving DecidableEq, Repr

/-- The record `struct dvalue` (dvalue.c:6-18). -/
structure dvalue where
  tag : Nat
  float_value : Nat
  int_value : Int
  ptr_value : dukptr_t
  buffer : buffer_t
deriving DecidableEq, Repr

/-- Ways in which a call leaves the behaviour the embedding describes. Neither
is a value the C functions return: the code has no error path. -/
inductive fault where
  /-- The stream ends before a blocking `socket_recv` has its bytes: the call
  never returns. -/
  | short_read
  /-- The code indexes past the end of `data[32]` or of the 8-byte address:
  undefined behaviour in C. -/
  | out_of_bounds
deriving DecidableEq, Repr

/-- Size in bytes of the local array `uint8_t data[32]` of both codec routines. -/
abbrev DATA_SIZE : Nat := 32

/-- Size in bytes of the address object inside `dukptr_t`. -/
abbrev ADDR_SIZE : Nat := 8

/-! ## Machine arithmetic -/

/-- Reduction of an integer to the range of a 32-bit two's-complement `int`. -/
def wrap_int (n : Int) : Int := (n + 2 ^ 31) % 2 ^ 32 - 2 ^ 31

/-- Conversion of an `int` to `size_t` (64 bits wide). -/
def to_size_t (n : Int) : Nat := (n % 2 ^ 64).toNat

/-- Byte `k` of the object representation of `x`: `((uint8_t*)&x)[k]`. -/
def byte_at (x k : Nat) : Nat := x / 256 ^ k % 256

/-- The object `x` after the store `((uint8_t*)&x)[k] = b`. -/
def set_byte (x k b : Nat) : Nat := x - byte_at x k * 256 ^ k + b % 256 * 256 ^ k

/-- Length of the C string held in a buffer: the number of bytes before the
first zero byte. -/
def strlen (data : List Nat) : Nat := (data.takeWhile (fun b => b ≠ 0)).length

/-! ## Construction and access (dvalue.c:29-138) -/

/-- The zeroed record that `calloc(1, sizeof(dvalue_t))` returns. -/
def calloc_dvalue : dvalue :=
  { tag := 0, float_value := 0, int_value := 0,
    ptr_value := { addr := 0, size := 0 }, buffer := { data := [], size := 0 } }

/-- `dvalue_new` (dvalue.c:29-37). -/
def dvalue_new (tag : Nat) : dvalue :=
  { calloc_dvalue with tag := tag }

/-- `dvalue_new_float` (dvalue.c:39-48). -/
def dvalue_new_float (value : Nat) : dvalue :=
  { calloc_dvalue with tag := DVALUE_FLOAT, float_value := value }

/-- `dvalue_new_heapptr` (dvalue.c:50-60). -/
def dvalue_new_heapptr (value : dukptr_t) : dvalue :=
  { calloc_dvalue with
    tag := DVALUE_HEAPPTR, ptr_value := { addr := value.addr, size := value.size } }

/-- `dvalue_new_int` (dvalue.c:62-71). -/
def dvalue_new_int (value : Int) : dvalue :=
  { calloc_dvalue with tag := DVALUE_INT, int_value := value }

/-- `dvalue_new_string` (dvalue.c:73-83): `value` is the C string without its
terminator; `strdup` allocates it together with the terminating zero. -/
def dvalue_new_string (value : List Nat) : dvalue :=
  { calloc_dvalue with
    tag := DVALUE_STRING,
    buffer := { data := value.takeWhile (fun b => b ≠ 0) ++ [0], size := strlen value } }

/-- `dvalue_tag` (dvalue.c:103-107). -/
def dvalue_tag (obj : dvalue) : Nat := obj.tag

/-- `dvalue_as_float` (dvalue.c:115-119). -/
def dvalue_as_float (obj : dvalue) : Nat :=
  if obj.tag = DVALUE_FLOAT then obj.float_value else 0

/-- `dvalue_as_ptr` (dvalue.c:121-132). -/
def dvalue_as_ptr (obj : dvalue) : dukptr_t :=
  let retval : dukptr_t := { addr := 0, size := 0 }
  if obj.tag = DVALUE_PTR ∨ obj.tag = DVALUE_HEAPPTR ∨ obj.tag = DVALUE_OBJ
      ∨ obj.tag = DVALUE_LIGHTFUNC then
    { retval with addr := obj.ptr_value.addr, size := obj.ptr_value.size }
  else retval

/-- `dvalue_as_int` (dvalue.c:134-138). -/
def dvalue_as_int (obj : dvalue) : Int :=
  if obj.tag = DVALUE_INT then obj.int_value else 0

/-! ## Socket primitives -/

/-- Modelled from the spec: `socket_recv` lives in `sockets.c`, which is not among
the sources. The read blocks on the stream until `n` bytes have arrived; it
yields them together with the rest of the stream. -/
def socket_recv (socket : List Nat) (n : Nat) : Except fault (List Nat × List Nat) :=
  if n ≤ socket.length then .ok (socket.take n, socket.drop n) else .error .short_read

/-- Modelled from the spec: `socket_send` lives in `sockets.c`, which is not among
the sources. It appends the first `n` bytes of `buf` to the bytes written. -/
def socket_send (socket : List Nat) (buf : List Nat) (n : Nat) : List Nat :=
  socket ++ buf.take n

/-! ## Decoding (dvalue.c:182-288) -/

/-- The loop `for (i = 0, j = size - 1; j >= 0; ++i, --j)
((uint8_t*)&addr)[i] = data[j];` of the pointer cases; the third argument is
`j + 1`. -/
def recv_ptr_loop (data : List Nat) : Nat → Nat → Nat → Nat
  | _, 0, addr => addr
  | i, j + 1, addr => recv_ptr_loop data (i + 1) j (set_byte addr i (data.getD j 0))

/-- The tail shared by the four pointer cases (dvalue.c:242-246, 249-253,
257-261, 264-268): read the width byte into `ptr_value.size`, read that many
bytes into `data`, set the tag and store the bytes reversed into the address. -/
def recv_ptr (obj : dvalue) (tag : Nat) (socket : List Nat) :
    Except fault (dvalue × List Nat) := do
  let (sz, socket) ← socket_recv socket 1
  let size := sz.getD 0 0
  if DATA_SIZE < size then throw fault.out_of_bounds
  let (data, socket) ← socket_recv socket size
  if ADDR_SIZE < size then throw fault.out_of_bounds
  let addr := recv_ptr_loop data 0 size obj.ptr_value.addr
  return ({ obj with tag := tag, ptr_value := { addr := addr, size := size } }, socket)

/-- The tail shared by the buffer cases: allocate `size + 1` zeroed bytes, read
`size` bytes into them and set the tag. -/
def recv_buffer (obj : dvalue) (tag : Nat) (size : Nat) (socket : List Nat) :
    Except fault (dvalue × List Nat) := do
  let (bytes, socket) ← socket_recv socket size
  return ({ obj with tag := tag, buffer := { data := bytes ++ [0], size := size } }, socket)

/-- `dvalue_recv` (dvalue.c:182-288): the decoded value and the rest of the
stream. -/
def dvalue_recv (socket : List Nat) : Except fault (dvalue × List Nat) := do
  let obj := calloc_dvalue
  let (ibs, socket) ← socket_recv socket 1
  let ib := ibs.getD 0 0
  let obj := { obj with tag := ib }
  if ib = DVALUE_INT then
    let (data, socket) ← socket_recv socket 4
    let v := wrap_int ↑(data.getD 0 0 <<< 24 + data.getD 1 0 <<< 16
      + data.getD 2 0 <<< 8 + data.getD 3 0)
    return ({ obj with tag := DVALUE_INT, int_value := v }, socket)
  else if ib = DVALUE_STRING then
    let (data, socket) ← socket_recv socket 4
    let size := to_size_t (wrap_int ↑(data.getD 0 0 <<< 24 + data.getD 1 0 <<< 16
      + data.getD 2 0 <<< 8 + data.getD 3 0))
    recv_buffer obj DVALUE_STRING size socket
  else if ib = DVALUE_STRING16 then
    let (data, socket) ← socket_recv socket 2
    let size := to_size_t ↑(data.getD 0 0 <<< 8 + data.getD 1 0)
    recv_buffer obj DVALUE_STRING size socket
  else if ib = DVALUE_BUF then
    let (data, socket) ← socket_recv socket 4
    let size := to_size_t (wrap_int ↑(data.getD 0 0 <<< 24 + data.getD 1 0 <<< 16
      + data.getD 2 0 <<< 8 + data.getD 3 0))
    recv_buffer obj DVALUE_BUF size socket
  else if ib = DVALUE_BUF16 then
    let (data, socket) ← socket_recv socket 2
    let size := to_size_t ↑(data.getD 0 0 <<< 8 + data.getD 1 0)
    recv_buffer obj DVALUE_BUF size socket
  else if ib = DVALUE_FLOAT then
    let (data, socket) ← socket_recv socket 8
    let f := set_byte obj.float_value 0 (data.getD 7 0)
    let f := set_byte f 1 (data.getD 6 0)
    let f := set_byte f 2 (data.getD 5 0)
    let f := set_byte f 3 (data.getD 4 0)
    let f := set_byte f 4 (data.getD 3 0)
    let f := set_byte f 5 (data.getD 2 0)
    let f := set_byte f 6 (data.getD 1 0)
    let f := set_byte f 7 (data.getD 0 0)
    return ({ obj with tag := DVALUE_FLOAT, float_value := f }, socket)
  else if ib = DVALUE_OBJ then
    let (_, socket) ← socket_recv socket 1
    recv_ptr obj DVALUE_OBJ socket
  else if ib = DVALUE_PTR then
    recv_ptr obj DVALUE_PTR socket
  else if ib = DVALUE_LIGHTFUNC then
    let (_, socket) ← socket_recv socket 2
    recv_ptr obj DVALUE_LIGHTFUNC socket
  else if ib = DVALUE_HEAPPTR then
    recv_ptr obj DVALUE_HEAPPTR socket
  else if 0x60 ≤ ib ∧ ib ≤ 0x7F then
    recv_buffer obj DVALUE_STRING (ib - 0x60) socket
  else if 0x80 ≤ ib ∧ ib ≤ 0xBF then
    return ({ obj with tag := DVALUE_INT, int_value := ↑ib - 0x80 }, socket)
  else if 0xC0 ≤ ib then
    let (data, socket) ← socket_recv socket 1
    return ({ obj with tag := DVALUE_INT,
                       int_value := ↑((ib - 0xC0) <<< 8 + data.getD 0 0) }, socket)
  else
    return (obj, socket)

/-! ## Encoding (dvalue.c:290-335) -/

/-- The loop `for (i = 0, j = size - 1; j >= 0; ++i, --j)
data[i] = ((uint8_t*)&addr)[j];` of the HEAPPTR case; the third argument is
`j + 1`. -/
def send_ptr_loop (addr : Nat) : Nat → Nat → List Nat → List Nat
  | _, 0, data => data
  | i, j + 1, data => send_ptr_loop addr (i + 1) j (data.set i (byte_at addr j))

/-- `dvalue_send` (dvalue.c:290-335): the bytes written to the socket. -/
def dvalue_send (obj : dvalue) : Except fault (List Nat) := do
  let data : List Nat := List.replicate DATA_SIZE 0
  let data := data.set 0 (obj.tag % 256)
  let socket := socket_send [] data 1
  if obj.tag = DVALUE_INT then
    let data := data.set 0 ((obj.int_value / 2 ^ 24 % 256).toNat)
    let data := data.set 1 ((obj.int_value / 2 ^ 16 % 256).toNat)
    let data := data.set 2 ((obj.int_value / 2 ^ 8 % 256).toNat)
    let data := data.set 3 ((obj.int_value % 256).toNat)
    return socket_send socket data 4
  else if obj.tag = DVALUE_STRING then
    let str_length := strlen obj.buffer.data % 2 ^ 32
    let data := data.set 0 (str_length / 2 ^ 24 % 256)
    let data := data.set 1 (str_length / 2 ^ 16 % 256)
    let data := data.set 2 (str_length / 2 ^ 8 % 256)
    let data := data.set 3 (str_length % 256)
    let socket := socket_send socket data 4
    return socket_send socket obj.buffer.data (wrap_int ↑str_length).toNat
  else if obj.tag = DVALUE_FLOAT then
    let data := data.set 0 (byte_at obj.float_value 7)
    let data := data.set 1 (byte_at obj.float_value 6)
    let data := data.set 2 (byte_at obj.float_value 5)
    let data := data.set 3 (byte_at obj.float_value 4)
    let data := data.set 4 (byte_at obj.float_value 3)
    let data := data.set 5 (byte_at obj.float_value 2)
    let data := data.set 6 (byte_at obj.float_value 1)
    let data := data.set 7 (byte_at obj.float_value 0)
    return socket_send socket data 8
  else if obj.tag = DVALUE_HEAPPTR then
    if DATA_SIZE < obj.ptr_value.size ∨ ADDR_SIZE < obj.ptr_value.size then
      throw fault.out_of_bounds
    let data := send_ptr_loop obj.ptr_value.addr 0 obj.ptr_value.size data
    let socket := socket_send socket [obj.ptr_value.size % 256] 1
    return socket_send socket data obj.ptr_value.size
  else
    return socket

/-! ## Display (dvalue.c:20-27, 140-180) -/

/-- The digits of `n` in lowercase hexadecimal, most significant first and
without leading zeros; the first argument bounds the number of digits. -/
def hex_min : Nat → Nat → List Char
  | 0, _ => []
  | fuel + 1, n =>
    if n < 16 then [Nat.digitChar n] else hex_min fuel (n / 16) ++ [Nat.digitChar (n % 16)]

/-- The C library conversion `%0<width>x` of `printf`, for a value of at most
64 bits: lowercase hexadecimal, padded on the left with zeros to `width`
characters. -/
def printf_x (width n : Nat) : List Char :=
  let ds := hex_min 16 n
  List.replicate (width - ds.length) '0' ++ ds

/-- `print_duktape_ptr` (dvalue.c:20-27); the casts keep the low 64 or 32 bits
of the address. -/
def print_duktape_ptr (ptr : dukptr_t) : List Char :=
  if ptr.size = 8 then printf_x 16 (ptr.addr % 2 ^ 64) ++ ['h']
  else if ptr.size = 4 then printf_x 8 (ptr.addr % 2 ^ 32) ++ ['h']
  else []

/-- The C library conversion `%s` of `printf`: the bytes of the buffer up to the
first zero byte, as they are. -/
def printf_s (data : List Nat) : List Char :=
  (data.takeWhile (fun b => b ≠ 0)).map Char.ofNat

/-- `dvalue_print` (dvalue.c:140-180): the text written to standard output.
`fmt_g` stands for the C library conversion `%g` of a double. -/
def dvalue_print (fmt_g : Nat → List Char) (obj : dvalue) (is_verbose : Bool) : List Char :=
  if dvalue_tag obj = DVALUE_UNDEF then "undefined".toList
  else if dvalue_tag obj = DVALUE_UNUSED then "unused".toList
  else if dvalue_tag obj = DVALUE_NULL then "null".toList
  else if dvalue_tag obj = DVALUE_TRUE then "true".toList
  else if dvalue_tag obj = DVALUE_FALSE then "false".toList
  else if dvalue_tag obj = DVALUE_FLOAT then fmt_g obj.float_value
  else if dvalue_tag obj = DVALUE_INT then (toString obj.int_value).toList
  else if dvalue_tag obj = DVALUE_STRING then
    "\"".toList ++ printf_s obj.buffer.data ++ "\"".toList
  else if dvalue_tag obj = DVALUE_BUF then
    "buf:".toList ++ (toString obj.buffer.size).toList ++ "-bytes".toList
  else if dvalue_tag obj = DVALUE_HEAPPTR then
    "\x7b heap:\"".toList ++ print_duktape_ptr (dvalue_as_ptr obj) ++ "\" \x7d".toList
  else if dvalue_tag obj = DVALUE_LIGHTFUNC then
    "\x7b lightfunc:\"".toList ++ print_duktape_ptr (dvalue_as_ptr obj) ++ "\" \x7d".toList
  else if dvalue_tag obj = DVALUE_OBJ then
    if !is_verbose then "\x7b...\x7d".toList
    else "\x7b obj:\"".toList ++ print_duktape_ptr (dvalue_as_ptr obj) ++ "\" \x7d".toList
  else if dvalue_tag obj = DVALUE_PTR then
    "\x7b ptr:\"".toList ++ print_duktape_ptr (dvalue_as_ptr obj) ++ "\" \x7d".toList
  else "*munch*".toList

/-! ## Copying and freeing (dvalue.c:85-101)

For these two routines the payload buffer has to be told apart from the
pointer to it, so the record is taken as it lies in memory: `buffer.data` is an
address into a heap of allocations. -/

/-- The record `struct dvalue` in memory: `buffer_data` is the address held in
`buffer.data` (0 for NULL). -/
structure dvalue_rec where
  tag : Nat
  float_value : Nat
  int_value : Int
  ptr_value : dukptr_t
  buffer_data : Nat
  buffer_size : Nat
deriving DecidableEq, Repr

/-- The allocations alive on the C heap: the `dvalue_t` records and the payload
buffers, each under its address, and the next address `calloc` hands out. -/
structure heap where
  records : List (Nat × dvalue_rec)
  buffers : List (Nat × List Nat)
  next : Nat
deriving DecidableEq, Repr

/-- Ways in which a heap operation is undefined behaviour in C. -/
inductive heap_fault where
  /-- A record is read through an address that is not allocated. -/
  | invalid_read
  /-- An address is passed to `free` that is not (or no longer) allocated. -/
  | invalid_free
deriving DecidableEq, Repr

/-- The C library call `free(ptr)` on a payload buffer; `free(NULL)` does
nothing. -/
def free_buffer (h : heap) (ptr : Nat) : Except heap_fault heap :=
  if ptr = 0 then .ok h
  else if (h.buffers.lookup ptr).isSome then
    .ok { h with buffers := h.buffers.filter (fun e => e.1 ≠ ptr) }
  else .error heap_fault.invalid_free

/-- `dvalue_dup` (dvalue.c:85-93): `calloc` a record and `memcpy` the source
record over it; the result is the heap and the address of the new record. -/
def dvalue_dup (h : heap) (src : Nat) : Except heap_fault (heap × Nat) :=
  match h.records.lookup src with
  | none => .error heap_fault.invalid_read
  | some r =>
    let obj := h.next
    .ok ({ h with records := (obj, r) :: h.records, next := h.next + 1 }, obj)

/-- `dvalue_free` (dvalue.c:95-101). -/
def dvalue_free (h : heap) (obj : Nat) : Except heap_fault heap :=
  match h.records.lookup obj with
  | none => .error heap_fault.invalid_read
  | some r =>
    let freed :=
      if r.tag = DVALUE_STRING ∨ r.tag = DVALUE_BUF then free_buffer h r.buffer_data
      else .ok h
    match freed with
    | .error e => .error e
    | .ok h1 => .ok { h1 with records := h1.records.filter (fun e => e.1 ≠ obj) }

/-! ## Command line of the debugger (ssj/main.c) -/

/-- The C library constant `EXIT_SUCCESS`. -/
abbrev EXIT_SUCCESS : Int := 0

/-- The C library constant `EXIT_FAILURE`. -/
abbrev EXIT_FAILURE : Int := 1

/-- What the debugger does that can be observed from outside, in order. -/
inductive action where
  /-- The call `print_usage()`. -/
  | usage
  /-- The call `print_banner(want_copyright, want_deps)`. -/
  | banner (want_copyright want_deps : Bool)
  /-- The call `print_cell_quote()`. -/
  | cell_quote
  /-- The message `ssj: error: unknown option '<arg>'`. -/
  | unknown_long (arg : List Char)
  /-- The message `ssj: error: unknown option '-<c>'`. -/
  | unknown_short (c : Char)
  /-- The engine is started on a game path (`fork` and `execlp`, or `system`). -/
  | spawn (path : List Char)
  /-- The call `attach_session(session, "127.0.0.1", 1208)`. -/
  | attach
  /-- The call `run_session(session)`. -/
  | run_session
deriving DecidableEq, Repr

/-- The record `struct cmdline` (ssj/main.c:7-10); `none` is the NULL path. -/
structure cmdline where
  path : Option (List Char)
deriving DecidableEq, Repr

/-- What `parse_cmdline` hands back: the command line or NULL, the value stored
through `out_retval`, and what it printed. -/
structure parse_result where
  cmdline : Option cmdline
  retval : Int
  printed : List action
deriving DecidableEq, Repr

/-- The inner loop of `parse_cmdline` (ssj/main.c:98-108) over the letters of a
short-option argument, given in the order the loop visits them (last letter
first); the result is the new `have_target`, or the letter it rejects. -/
def parse_short_args : List Char → Bool → Except Char Bool
  | [], have_target => .ok have_target
  | c :: cs, _ =>
    if c = 'c' then parse_short_args cs true
    else .error c

/-- The loop `for (i = 1; i < argc; ++i)` of `parse_cmdline` (ssj/main.c:75-115)
and what follows it, over the arguments still to be read. -/
def parse_args : List (List Char) → Option (List Char) → Bool → parse_result
  | [], path, have_target =>
    if !have_target then
      { cmdline := none, retval := EXIT_SUCCESS, printed := [action.usage] }
    else
      { cmdline := some { path := path }, retval := EXIT_SUCCESS, printed := [] }
  | arg :: rest, path, have_target =>
    if arg.take 2 = ['-', '-'] then
      if arg = "--help".toList then
        { cmdline := none, retval := EXIT_SUCCESS, printed := [action.usage] }
      else if arg = "--version".toList then
        { cmdline := none, retval := EXIT_SUCCESS, printed := [action.banner true true] }
      else if arg = "--explode".toList then
        { cmdline := none, retval := EXIT_SUCCESS, printed := [action.cell_quote] }
      else if arg = "--connect".toList then
        parse_args rest path true
      else
        { cmdline := none, retval := EXIT_SUCCESS, printed := [action.unknown_long arg] }
    else if arg.head? = some '-' then
      match parse_short_args (arg.drop 1).reverse have_target with
      | .ok have_target1 => parse_args rest path have_target1
      | .error c =>
        { cmdline := none, retval := EXIT_FAILURE, printed := [action.unknown_short c] }
    else
      parse_args rest (some arg) true

/-- `parse_cmdline` (ssj/main.c:62-129); `argv` includes the program name. -/
def parse_cmdline (argv : List (List Char)) : parse_result :=
  parse_args (argv.drop 1) none false

/-- `main` of the debugger (ssj/main.c:17-60): the exit code and what was done.
`attach_ok` is the result of `attach_session`, whose code is not among the
sources. -/
def ssj_main (argv : List (List Char)) (attach_ok : Bool) : Int × List action :=
  let r := parse_cmdline argv
  match r.cmdline with
  | none => (r.retval, r.printed)
  | some c =>
    let done := r.printed ++ [action.banner true false]
    let done :=
      match c.path with
      | some p => done ++ [action.spawn p]
      | none => done
    let done := done ++ [action.attach]
    if !attach_ok then (EXIT_FAILURE, done)
    else (EXIT_SUCCESS, done ++ [action.run_session])

/-! ## Specification-side vocabulary -/

/-- The integer that a sequence of bytes denotes when read most significant
byte first. -/
def big_endian (bytes : List Nat) : Nat := bytes.foldl (fun acc b => acc * 256 + b) 0

/-- The `w` bytes of `x`, most significant byte first. -/
def big_endian_bytes (w x : Nat) : List Nat :=
  (List.range w).map (fun i => x / 256 ^ (w - 1 - i) % 256)

/-- The value of tag `tag` that carries the pointer of width `w` and address
`a` and nothing else. -/
def pointer_value (tag w a : Nat) : dvalue :=
  { dvalue_new tag with ptr_value := { addr := a, size := w } }

/-- The signed value of a 32-bit pattern read as two's complement. -/
def signed32 (u : Nat) : Int := if u < 2 ^ 31 then ↑u else ↑u - 2 ^ 32

/-- The value of tag `tag` (STRING or BUF) whose buffer holds the payload `p`,
followed by the terminating zero byte of the allocation, and whose declared
size is the length of `p`. -/
def buffer_value (tag : Nat) (p : List Nat) : dvalue :=
  { dvalue_new tag with buffer := { data := p ++ [0], size := p.length } }

/-- The number `a` written with exactly `digits` lowercase hexadecimal digits,
most significant first. -/
def hex_padded (digits a : Nat) : List Char :=
  (List.range digits).map (fun i => Nat.digitChar (a / 16 ^ (digits - 1 - i) % 16))

/-- A heap that holds one STRING value, at address 1, whose payload buffer, at
address 2, is `hi` and the terminating zero. -/
def sample_heap : heap :=
  { records := [(1, { tag := DVALUE_STRING, float_value := 0, int_value := 0,
                      ptr_value := { addr := 0, size := 0 },
                      buffer_data := 2, buffer_size := 2 })],
    buffers := [(2, [0x68, 0x69, 0x00])],
    next := 3 }

/-- An argument that `parse_cmdline` reads and goes on from: `--connect`, a
short-option argument all of whose letters are `c`, or a game path (any
argument that does not start with a dash). -/
def accepted (arg : List Char) : Prop :=
  arg = "--connect".toList
  ∨ (arg.take 2 ≠ ['-', '-'] ∧ arg.head? = some '-' ∧ ∀ c ∈ arg.drop 1, c = 'c')
  ∨ arg.head? ≠ some '-'

instance (arg : List Char) : Decidable (accepted arg) := by
  unfold accepted
  infer_instance

/-- The informational options and what each of them prints. -/
def informational (arg : List Char) : Option action :=
  if arg = "--help".toList then some action.usage
  else if arg = "--version".toList then some (action.banner true true)
  else if arg = "--explode".toList then some action.cell_quote
  else none

/-- The values that `dvalue_send` encodes together with their payload: the
five payload-free tags, an INT within the 32-bit range, a FLOAT pattern of 64
bits, a HEAPPTR of width 4 or 8 whose address fits the width, and a STRING
whose buffer holds `size` nonzero bytes (fewer than `2 ^ 31`) and then the
terminating zero. In each case every other member is as `calloc` left it. -/
def encodable (v : dvalue) : Prop :=
  ((v.tag = DVALUE_UNDEF ∨ v.tag = DVALUE_UNUSED ∨ v.tag = DVALUE_NULL
      ∨ v.tag = DVALUE_TRUE ∨ v.tag = DVALUE_FALSE) ∧ v = dvalue_new v.tag)
  ∨ (v = dvalue_new_int v.int_value ∧ -2 ^ 31 ≤ v.int_value ∧ v.int_value < 2 ^ 31)
  ∨ (v = dvalue_new_float v.float_value ∧ v.float_value < 2 ^ 64)
  ∨ (v = dvalue_new_heapptr v.ptr_value
      ∧ (v.ptr_value.size = 4 ∨ v.ptr_value.size = 8)
      ∧ v.ptr_value.addr < 256 ^ v.ptr_value.size)
  ∨ (v = { dvalue_new DVALUE_STRING with buffer := v.buffer }
      ∧ v.buffer.data = v.buffer.data.take v.buffer.size ++ [0]
      ∧ v.buffer.data.length = v.buffer.size + 1
      ∧ (∀ b ∈ v.buffer.data.take v.buffer.size, b ≠ 0)
      ∧ v.buffer.size < 2 ^ 31)

instance (v : dvalue) : Decidable (encodable v) := by
  unfold encodable
  infer_instance

deriving instance DecidableEq for Except

end Ssj

/-! # Engine frame pacing and script runner (`src/minisphere/main.c`, `src/src/script.c`) -/

namespace Minisphere

/-- The constant `MAX_FRAME_SKIPS` (main.c:30). -/
abbrev MAX_FRAME_SKIPS : Int := 5

/-- The static variables that `begin_frame` reads and writes, apart from the
clock values, which enter through `frame_input`. -/
structure frame_state where
  s_frame_skips : Int
  g_skip_frame : Bool
  s_num_flips : Int
  s_num_frames : Int
  s_current_fps : Int
  s_current_game_fps : Int
deriving DecidableEq, Repr

/-- What one call of `begin_frame` takes from outside: its argument, and the
outcome of the tests it makes on clock readings and events. -/
structure frame_input where
  framerate : Int
  /-- Outcome of `current_time > next_frame_time` (main.c:296). -/
  is_late : Bool
  /-- Whether every `do_events()` of the call returned true. -/
  events_ok : Bool
  /-- Outcome of `s_last_frame_time >= s_last_fps_poll_time + 1.0` (main.c:339). -/
  poll_due : Bool
deriving DecidableEq, Repr

/-- The state at program start: the statics are zero, `g_skip_frame = false`. -/
def initial_frame_state : frame_state :=
  { s_frame_skips := 0, g_skip_frame := false, s_num_flips := 0, s_num_frames := 0,
    s_current_fps := 0, s_current_game_fps := 0 }

/-- `begin_frame` (main.c:277-347): the state after the call and the value
returned. -/
def begin_frame (st : frame_state) (inp : frame_input) : frame_state × Bool :=
  let is_backbuffer_valid := !st.g_skip_frame
  let st :=
    if inp.framerate > 0 then
      { st with g_skip_frame := decide (st.s_frame_skips < MAX_FRAME_SKIPS) && inp.is_late }
    else
      { st with g_skip_frame := false }
  if !inp.events_ok then (st, false)
  else
    let st :=
      if is_backbuffer_valid then
        { st with s_num_flips := st.s_num_flips + 1, s_frame_skips := 0 }
      else
        { st with s_frame_skips := st.s_frame_skips + 1 }
    let st := { st with s_num_frames := st.s_num_frames + 1 }
    let st :=
      if inp.poll_due then
        { st with s_current_fps := st.s_num_flips, s_current_game_fps := st.s_num_frames,
                  s_num_flips := 0, s_num_frames := 0 }
      else st
    (st, true)

/-- The state after a sequence of `begin_frame` calls. -/
def run_frames (st : frame_state) (inputs : List frame_input) : frame_state :=
  inputs.foldl (fun s inp => (begin_frame s inp).1) st

/-- The record `struct script` (script.c:5-10). -/
structure script_t where
  refcount : Nat
  is_in_use : Bool
  id : Nat
deriving DecidableEq, Repr

/-- `ref_script` (script.c:113-118); `refcount` is an `unsigned int`. -/
def ref_script (s : script_t) : script_t :=
  { s with refcount := (s.refcount + 1) % 2 ^ 32 }

/-- `free_script` (script.c:120-133) on a pointer (`none` is NULL): the record
that is left, `none` once it has been freed. -/
def free_script (script : Option script_t) : Option script_t :=
  match script with
  | none => none
  | some s =>
    let s := { s with refcount := (s.refcount + 2 ^ 32 - 1) % 2 ^ 32 }
    if s.refcount > 0 then some s else none

/-- How the unprotected Duktape call `duk_call(g_duk, 0)` (script.c:156) ends:
the compiled script returns, or it throws and the error leaves `run_script` by
a non-local exit. Either way the record is as the called code left it. -/
inductive call_result where
  /-- The script ran to its end. -/
  | returned (s : script_t)
  /-- The script threw: control does not come back to the caller of `duk_call`. -/
  | thrown (s : script_t)
deriving DecidableEq, Repr

/-- What a call of `run_script` leaves behind: the record (`none` for NULL or
freed), for each `duk_call` made the record as the called code found it, and
whether `run_script` returned to its caller (`false` when a thrown error
carried control past it). -/
structure run_outcome where
  script : Option script_t
  calls : List script_t
  returned : Bool
deriving DecidableEq, Repr

/-- `run_script` (script.c:135-161). `duk_call` is what the compiled script
does to the record while it runs and how it ends; when it throws, the lines
after the call (script.c:157-160) are not run. -/
def run_script (script : Option script_t) (allow_reentry : Bool)
    (duk_call : script_t → call_result) : run_outcome :=
  match script with
  | none => { script := none, calls := [], returned := true }
  | some s =>
    if s.is_in_use && !allow_reentry then { script := some s, calls := [], returned := true }
    else
      let was_in_use := s.is_in_use
      let s := ref_script s
      let s := { s with is_in_use := true }
      let found := s
      match duk_call s with
      | .thrown s => { script := some s, calls := [found], returned := false }
      | .returned s =>
        let s := { s with is_in_use := was_in_use }
        { script := free_script (some s), calls := [found], returned := true }

/-- The input of a `begin_frame` call made at a positive frame rate when the
clock is already past the next frame time and events are handled. -/
def late_frame : frame_input :=
  { framerate := 60, is_late := true, events_ok := true, poll_due := false }

end Minisphere

/-! # Build tool script interface (`src/src/compiler/script.c`) -/

namespace Cell

/-- A JavaScript value that is not an array, as far as `Tool.build` looks at
it: `target` is a class object of class "Target" wrapping a `target_t*`. -/
inductive js_prim where
  | undefined
  | number (n : Int)
  | string (s : String)
  | target (ptr : Nat)
deriving DecidableEq, Repr

/-- A JavaScript value on the Duktape value stack. -/
inductive js_value where
  | prim (p : js_prim)
  | array (items : List js_prim)
deriving DecidableEq, Repr

/-- An error thrown through Duktape. -/
inductive js_error where
  /-- `duk_error_blame(ctx, -1, DUK_ERR_TYPE_ERROR, msg)`. -/
  | type_error (msg : String)
  /-- A `duk_require_*` call found a value of the wrong kind at an index. -/
  | require_failed (what : String)
deriving DecidableEq, Repr

/-- The record a `target_t*` points to, as `target_new` and `target_add_source`
build it. -/
structure target_t where
  name : String
  path : String
  tool : Nat
  sources : List Nat
deriving DecidableEq, Repr

/-- The Duktape call `duk_is_array`. -/
def duk_is_array (v : js_value) : Bool :=
  match v with
  | .array _ => true
  | .prim _ => false

/-- The Duktape call `duk_get_length`. -/
def duk_get_length (v : js_value) : Nat :=
  match v with
  | .array items => items.length
  | .prim (.string s) => s.length
  | .prim _ => 0

/-- The Duktape call `duk_get_prop_index`. -/
def duk_get_prop_index (v : js_value) (i : Nat) : js_prim :=
  match v with
  | .array items => items.getD i js_prim.undefined
  | .prim (.string s) => js_prim.string (String.mk ((s.toList.drop i).take 1))
  | .prim _ => js_prim.undefined

/-- The call `duk_require_class_obj(ctx, -1, "Target")`. -/
def require_target (v : js_prim) : Except js_error Nat :=
  match v with
  | .target ptr => .ok ptr
  | _ => .error (js_error.require_failed "Target")

/-- The loop of `js_Tool_build` (script.c:273-278) from index `i` on; the first
argument bounds the number of iterations left. -/
def add_sources (arg1 : js_value) (length : Nat) : Nat → Nat → target_t → Except js_error target_t
  | 0, _, target => .ok target
  | fuel + 1, i, target =>
    if i < length then
      match require_target (duk_get_prop_index arg1 i) with
      | .error e => .error e
      | .ok source => add_sources arg1 length fuel (i + 1)
          { target with sources := target.sources ++ [source] }
    else .ok target

/-- `js_Tool_build` (script.c:252-283). `this_tool` is the `tool_t*` of the
`this` binding when it is a Tool object; `path_filename` is the helper of that
name, whose code is not among the sources. -/
def js_Tool_build (path_filename : String → String) (this_tool : Option Nat)
    (arg0 : js_value) (arg1 : js_value) : Except js_error target_t :=
  match this_tool with
  | none => .error (js_error.require_failed "Tool")
  | some tool =>
    match arg0 with
    | .prim (.string out_path) =>
      if duk_is_array arg1 then
        .error (js_error.type_error "array expected (argument 2)")
      else
        let name := path_filename out_path
        let target : target_t := { name := name, path := out_path, tool := tool, sources := [] }
        let length := duk_get_length arg1
        add_sources arg1 length length 0 target
    | _ => .error (js_error.require_failed "string")

end Cell

namespace Ssj

/-! ## Auxiliary facts -/

theorem socket_recv_one (a : Nat) (s : List Nat) :
    socket_recv (a :: s) 1 = .ok ([a], s) := by
  simp [socket_recv]

theorem socket_recv_two (a b : Nat) (s : List Nat) :
    socket_recv (a :: b :: s) 2 = .ok ([a, b], s) := by
  simp [socket_recv]

theorem socket_recv_append (p rest : List Nat) :
    socket_recv (p ++ rest) p.length = .ok (p, rest) := by
  simp [socket_recv]

theorem socket_recv_le (s : List Nat) (n : Nat) (h : n ≤ s.length) :
    socket_recv s n = .ok (s.take n, s.drop n) := by
  simp [socket_recv, h]

/-- On an initial byte outside the `case` labels the `switch` of `dvalue_recv`
runs its `default` branch. -/
theorem dvalue_recv_default (ib : Nat) (s : List Nat)
    (h : ib < 0x14 ∨ (0x18 < ib ∧ ib < 0x1E) ∨ 0x22 < ib) :
    dvalue_recv (ib :: s) =
      if 0x60 ≤ ib ∧ ib ≤ 0x7F then
        recv_buffer (dvalue_new ib) DVALUE_STRING (ib - 0x60) s
      else if 0x80 ≤ ib ∧ ib ≤ 0xBF then
        .ok ({ dvalue_new ib with tag := DVALUE_INT, int_value := ↑ib - 0x80 }, s)
      else if 0xC0 ≤ ib then
        (socket_recv s 1).bind (fun r =>
          .ok ({ dvalue_new ib with
            tag := DVALUE_INT, int_value := ↑((ib - 0xC0) <<< 8 + r.1.getD 0 0) }, r.2))
      else .ok (dvalue_new ib, s) := by
  have h1 : ib ≠ 0x14 := by omega
  have h2 : ib ≠ 0x15 := by omega
  have h3 : ib ≠ 0x16 := by omega
  have h4 : ib ≠ 0x17 := by omega
  have h5 : ib ≠ 0x18 := by omega
  have h6 : ib ≠ 0x1E := by omega
  have h7 : ib ≠ 0x1F := by omega
  have h8 : ib ≠ 0x20 := by omega
  have h9 : ib ≠ 0x21 := by omega
  have h10 : ib ≠ 0x22 := by omega
  simp only [dvalue_recv, socket_recv_one, bind, Except.bind, pure, Except.pure,
    List.getD_cons_zero, h1, h2, h3, h4, h5, h6, h7, h8, h9, h10, if_false, dvalue_new]

theorem byte_at_lt (x k : Nat) : byte_at x k < 256 := by
  unfold byte_at
  omega

theorem set_byte_of_lt (x k b : Nat) (hx : x < 256 ^ k) (hb : b < 256) :
    set_byte x k b = x + b * 256 ^ k := by
  unfold set_byte byte_at
  rw [Nat.div_eq_of_lt hx, Nat.mod_eq_of_lt hb]
  simp

theorem big_endian_snoc (l : List Nat) (b : Nat) :
    big_endian (l ++ [b]) = big_endian l * 256 + b := by
  simp [big_endian, List.foldl_append]

theorem take_succ_getD (data : List Nat) (n : Nat) (h : n < data.length) :
    data.take (n + 1) = data.take n ++ [data.getD n 0] := by
  rw [List.take_succ, List.getD_eq_getElem?_getD, List.getElem?_eq_getElem h]
  rfl

theorem getD_lt (data : List Nat) (hb : ∀ b ∈ data, b < 256) (n : Nat) :
    data.getD n 0 < 256 := by
  rw [List.getD_eq_getElem?_getD]
  by_cases h : n < data.length
  · rw [List.getElem?_eq_getElem h]
    exact hb _ (List.getElem_mem h)
  · rw [List.getElem?_eq_none (by omega)]
    decide

/-- The reversing store loop of the pointer cases writes the big-endian value
of the bytes received into the zeroed part of the address. -/
theorem recv_ptr_loop_eq (data : List Nat) (hb : ∀ b ∈ data, b < 256) :
    ∀ (n i addr : Nat), n ≤ data.length → addr < 256 ^ i →
      recv_ptr_loop data i n addr = addr + 256 ^ i * big_endian (data.take n) := by
  intro n
  induction n with
  | zero =>
    intro i addr _ _
    simp [recv_ptr_loop, big_endian]
  | succ n ih =>
    intro i addr hn ha
    have hd : data.getD n 0 < 256 := getD_lt data hb n
    have hlt : addr + data.getD n 0 * 256 ^ i < 256 ^ (i + 1) := by
      have h1 : data.getD n 0 * 256 ^ i ≤ 255 * 256 ^ i :=
        Nat.mul_le_mul_right _ (by omega)
      rw [pow_succ]
      omega
    rw [recv_ptr_loop, set_byte_of_lt addr i _ ha hd, ih (i + 1) _ (by omega) hlt,
      take_succ_getD data n (by omega), big_endian_snoc, pow_succ]
    ring

theorem take_set_self (l : List Nat) (a : Nat) : ∀ i, (l.set i a).take i = l.take i := by
  induction l with
  | nil => intro i; simp
  | cons x xs ih =>
    intro i
    cases i with
    | zero => simp
    | succ i => simp [ih i]

/-- The reversing copy loop of the HEAPPTR case fills `data[i .. i + n)` with
the low `n` bytes of the address, most significant first. -/
theorem send_ptr_loop_take (addr : Nat) :
    ∀ (n i : Nat) (data : List Nat), i + n ≤ data.length →
      (send_ptr_loop addr i n data).take (i + n)
        = data.take i ++ (List.range n).map (fun k => byte_at addr (n - 1 - k)) := by
  intro n
  induction n with
  | zero =>
    intro i data _
    simp [send_ptr_loop]
  | succ n ih =>
    intro i data h
    have hlen : i + 1 + n ≤ (data.set i (byte_at addr n)).length := by
      rw [List.length_set]
      omega
    have e : i + (n + 1) = i + 1 + n := by omega
    rw [send_ptr_loop, e, ih (i + 1) _ hlen, List.range_succ_eq_map, List.map_cons,
      List.map_map]
    have hs : (data.set i (byte_at addr n)).take (i + 1) = data.take i ++ [byte_at addr n] := by
      rw [take_succ_getD _ i (by rw [List.length_set]; omega), take_set_self]
      congr 2
      rw [List.getD_eq_getElem?_getD, List.getElem?_set_eq_of_lt _ (by omega)]
      rfl
    rw [hs, List.append_assoc]
    congr 1
    simp only [List.singleton_append, Nat.add_sub_cancel, Nat.sub_zero, List.cons.injEq,
      true_and]
    apply List.map_congr_left
    intro k _
    simp only [Function.comp, Nat.succ_eq_add_one]
    congr 1
    omega

theorem send_ptr_loop_eq (addr w : Nat) (data : List Nat) (h : w ≤ data.length) :
    (send_ptr_loop addr 0 w data).take w = big_endian_bytes w addr := by
  have := send_ptr_loop_take addr w 0 data (by omega)
  simpa [big_endian_bytes, byte_at] using this

theorem big_endian_bytes_succ (w x : Nat) :
    big_endian_bytes (w + 1) x = big_endian_bytes w (x / 256) ++ [x % 256] := by
  unfold big_endian_bytes
  rw [List.range_succ, List.map_append]
  congr 1
  · apply List.map_congr_left
    intro i hi
    have hi2 : i < w := List.mem_range.mp hi
    have e : w + 1 - 1 - i = (w - 1 - i) + 1 := by omega
    rw [e, pow_succ, Nat.div_div_eq_div_mul, Nat.mul_comm]
  · simp

theorem big_endian_bytes_length (w x : Nat) : (big_endian_bytes w x).length = w := by
  simp [big_endian_bytes]

theorem big_endian_bytes_lt (w x : Nat) : ∀ b ∈ big_endian_bytes w x, b < 256 := by
  intro b hb
  simp only [big_endian_bytes, List.mem_map] at hb
  obtain ⟨i, _, rfl⟩ := hb
  omega

/-- Reading back the `w` big-endian bytes of `x` gives `x` reduced to `w` bytes. -/
theorem big_endian_of_bytes (w : Nat) : ∀ x, big_endian (big_endian_bytes w x) = x % 256 ^ w := by
  induction w with
  | zero =>
    intro x
    simp [big_endian_bytes, big_endian, Nat.mod_one]
  | succ w ih =>
    intro x
    rw [big_endian_bytes_succ, big_endian_snoc, ih, pow_succ, Nat.mul_comm (256 ^ w) 256,
      Nat.mod_mul]
    ring

theorem big_endian_lt (p : List Nat) (hb : ∀ b ∈ p, b < 256) :
    big_endian p < 256 ^ p.length := by
  induction p using List.reverseRecOn with
  | nil => simp [big_endian]
  | append_singleton l b ih =>
    have h1 : big_endian l < 256 ^ l.length :=
      ih (fun x hx => hb x (List.mem_append_left _ hx))
    have h2 : b < 256 := hb b (by simp)
    rw [big_endian_snoc, List.length_append, List.length_singleton, pow_succ]
    omega

/-- The shared tail of the pointer cases, run on a width byte `w` of at most 8
followed by `w` bytes. -/
theorem recv_ptr_run (obj : dvalue) (tag : Nat) (p rest : List Nat) (hw : p.length ≤ 8) :
    recv_ptr obj tag (p.length :: (p ++ rest))
      = .ok ({ obj with
               tag := tag,
               ptr_value := { addr := recv_ptr_loop p 0 p.length obj.ptr_value.addr,
                              size := p.length } }, rest) := by
  have h1 : ¬ (DATA_SIZE < p.length) := by simp only [DATA_SIZE]; omega
  have h2 : ¬ (ADDR_SIZE < p.length) := by simp only [ADDR_SIZE]; omega
  simp only [recv_ptr, socket_recv_one, socket_recv_append, bind, Except.bind, pure,
    Except.pure, List.getD_cons_zero, h1, h2, if_false]

theorem recv_ptr_ok (tag ib : Nat) (p rest : List Nat) (hw : p.length ≤ 8)
    (hb : ∀ b ∈ p, b < 256) :
    recv_ptr (dvalue_new ib) tag (p.length :: (p ++ rest))
      = .ok (pointer_value tag p.length (big_endian p), rest) := by
  rw [recv_ptr_run _ _ _ _ hw]
  have h := recv_ptr_loop_eq p hb p.length 0 0 (le_refl _) (by norm_num)
  simp only [List.take_length, pow_zero, one_mul, zero_add] at h
  simp only [dvalue_new, calloc_dvalue, pointer_value, h]

theorem dvalue_recv_obj (c : Nat) (s : List Nat) :
    dvalue_recv (DVALUE_OBJ :: c :: s) = recv_ptr (dvalue_new DVALUE_OBJ) DVALUE_OBJ s := by
  simp [dvalue_recv, socket_recv_one, bind, Except.bind, dvalue_new]

theorem dvalue_recv_ptr (s : List Nat) :
    dvalue_recv (DVALUE_PTR :: s) = recv_ptr (dvalue_new DVALUE_PTR) DVALUE_PTR s := by
  simp [dvalue_recv, socket_recv_one, bind, Except.bind, dvalue_new]

theorem dvalue_recv_lightfunc (f0 f1 : Nat) (s : List Nat) :
    dvalue_recv (DVALUE_LIGHTFUNC :: f0 :: f1 :: s)
      = recv_ptr (dvalue_new DVALUE_LIGHTFUNC) DVALUE_LIGHTFUNC s := by
  simp [dvalue_recv, socket_recv_one, socket_recv_two, bind, Except.bind, dvalue_new]

theorem dvalue_recv_heapptr (s : List Nat) :
    dvalue_recv (DVALUE_HEAPPTR :: s)
      = recv_ptr (dvalue_new DVALUE_HEAPPTR) DVALUE_HEAPPTR s := by
  simp [dvalue_recv, socket_recv_one, bind, Except.bind, dvalue_new]

theorem data_take_one (x : Nat) :
    ((List.replicate DATA_SIZE 0).set 0 x).take 1 = [x] := rfl

/-- What `dvalue_send` writes for a HEAPPTR of width at most 8. -/
theorem dvalue_send_heapptr (v : dvalue) (ht : v.tag = DVALUE_HEAPPTR)
    (hw : v.ptr_value.size ≤ 8) :
    dvalue_send v
      = .ok (DVALUE_HEAPPTR :: v.ptr_value.size
              :: big_endian_bytes v.ptr_value.size v.ptr_value.addr) := by
  have h1 : ¬ (DATA_SIZE < v.ptr_value.size ∨ ADDR_SIZE < v.ptr_value.size) := by
    simp only [DATA_SIZE, ADDR_SIZE]; omega
  have h2 : v.ptr_value.size % 256 = v.ptr_value.size := by omega
  have h3 := send_ptr_loop_eq v.ptr_value.addr v.ptr_value.size
    ((List.replicate DATA_SIZE 0).set 0 (v.tag % 256))
    (by rw [List.length_set, List.length_replicate]; simp only [DATA_SIZE]; omega)
  rw [ht] at h3
  simp only [dvalue_send, ht, socket_send, h1, h2, h3, bind, Except.bind, pure, Except.pure,
    if_false, data_take_one]
  simp only [Nat.reduceMod, List.singleton_append, List.cons_append, List.nil_append,
    List.take_succ_cons, List.take_zero]
  rfl

/-- What `dvalue_send` writes for a FLOAT. -/
theorem dvalue_send_float (v : dvalue) (ht : v.tag = DVALUE_FLOAT) :
    dvalue_send v = .ok (DVALUE_FLOAT :: big_endian_bytes 8 v.float_value) := by
  obtain ⟨tag, f, n, p, b⟩ := v
  simp only at ht
  subst ht
  rfl

/-- What `dvalue_recv` returns on a FLOAT tag followed by eight bytes. -/
theorem dvalue_recv_float (p rest : List Nat) (hp : p.length = 8) (hb : ∀ b ∈ p, b < 256) :
    dvalue_recv (DVALUE_FLOAT :: (p ++ rest)) = .ok (dvalue_new_float (big_endian p), rest) := by
  have h := recv_ptr_loop_eq p hb 8 0 0 (by omega) (by norm_num)
  have ht : p.take 8 = p := by rw [← hp, List.take_length]
  rw [ht, pow_zero, one_mul, zero_add] at h
  have hr : socket_recv (p ++ rest) 8 = .ok (p, rest) := by
    rw [← hp]; exact socket_recv_append p rest
  have hq : dvalue_recv (DVALUE_FLOAT :: (p ++ rest))
      = .ok ({ calloc_dvalue with
               tag := DVALUE_FLOAT, float_value := recv_ptr_loop p 0 8 0 }, rest) := by
    simp only [dvalue_recv, socket_recv_one, hr, bind, Except.bind, pure, Except.pure,
      List.getD_cons_zero]
    rfl
  rw [hq, h]
  rfl

theorem strlen_terminated (s : List Nat) (h : ∀ b ∈ s, b ≠ 0) :
    strlen (s ++ [0]) = s.length := by
  induction s with
  | nil => simp [strlen]
  | cons x xs ih =>
    have hx : x ≠ 0 := h x (by simp)
    have hxs : ∀ b ∈ xs, b ≠ 0 := fun b hb => h b (by simp [hb])
    have := ih hxs
    unfold strlen at this ⊢
    rw [List.cons_append, List.takeWhile_cons_of_pos (by simpa using hx), List.length_cons,
      this, List.length_cons]

/-- What `dvalue_send` writes for an INT. -/
theorem dvalue_send_int (n : Int) :
    dvalue_send (dvalue_new_int n)
      = .ok [DVALUE_INT, (n / 2 ^ 24 % 256).toNat, (n / 2 ^ 16 % 256).toNat,
             (n / 2 ^ 8 % 256).toNat, (n % 256).toNat] := rfl

/-- What `dvalue_recv` returns on a long-form INT. -/
theorem dvalue_recv_int (b0 b1 b2 b3 : Nat) (rest : List Nat) :
    dvalue_recv (DVALUE_INT :: b0 :: b1 :: b2 :: b3 :: rest)
      = .ok (dvalue_new_int (wrap_int ↑(b0 <<< 24 + b1 <<< 16 + b2 <<< 8 + b3)), rest) := by
  simp [dvalue_recv, socket_recv, bind, Except.bind, pure, Except.pure, dvalue_new_int,
    calloc_dvalue]

/-- What `dvalue_send` writes for a STRING whose buffer is zero-terminated. -/
theorem dvalue_send_string (v : dvalue) (s : List Nat) (ht : v.tag = DVALUE_STRING)
    (hd : v.buffer.data = s ++ [0]) (hs : ∀ b ∈ s, b ≠ 0) (hlen : s.length < 2 ^ 31) :
    dvalue_send v
      = .ok (DVALUE_STRING :: s.length / 2 ^ 24 % 256 :: s.length / 2 ^ 16 % 256
              :: s.length / 2 ^ 8 % 256 :: s.length % 256 :: s) := by
  have h1 : strlen (s ++ [0]) % 2 ^ 32 = s.length := by
    rw [strlen_terminated s hs]
    omega
  have h2 : (wrap_int ↑s.length).toNat = s.length := by
    simp only [wrap_int]
    omega
  have h3 : (s ++ [0]).take s.length = s := by simp
  obtain ⟨tag, f, n, p, b⟩ := v
  simp only at ht hd
  subst ht
  simp only [dvalue_send, hd, h1, h2, h3, socket_send, pure, Except.pure]
  rfl

theorem recompose_length (n : Nat) (h : n < 2 ^ 32) :
    (n / 2 ^ 24 % 256) <<< 24 + (n / 2 ^ 16 % 256) <<< 16 + (n / 2 ^ 8 % 256) <<< 8 + n % 256
      = n := by
  simp only [Nat.shiftLeft_eq]
  omega

theorem wrap_int_small (n : Nat) (h : n < 2 ^ 31) : wrap_int ↑n = ↑n := by
  simp only [wrap_int]
  omega

theorem to_size_t_small (n : Nat) (h : n < 2 ^ 31) : to_size_t ↑n = n := by
  simp only [to_size_t]
  omega

/-- The shared tail of the buffer cases, run on a stream that holds the `size`
bytes wanted. -/
theorem recv_buffer_ok (obj : dvalue) (tag : Nat) (p rest : List Nat) :
    recv_buffer obj tag p.length (p ++ rest)
      = .ok ({ obj with tag := tag, buffer := { data := p ++ [0], size := p.length } },
             rest) := by
  simp only [recv_buffer, socket_recv_append, bind, Except.bind, pure, Except.pure]

theorem socket_recv_four (a b c d : Nat) (s : List Nat) :
    socket_recv (a :: b :: c :: d :: s) 4 = .ok ([a, b, c, d], s) := by
  simp [socket_recv]

/-- The long-form STRING case reads a 4-byte length and hands over to the
buffer tail. -/
theorem dvalue_recv_string_tag (s data rest : List Nat)
    (h : socket_recv s 4 = .ok (data, rest)) :
    dvalue_recv (DVALUE_STRING :: s)
      = recv_buffer (dvalue_new DVALUE_STRING) DVALUE_STRING
          (to_size_t (wrap_int ↑(data.getD 0 0 <<< 24 + data.getD 1 0 <<< 16
            + data.getD 2 0 <<< 8 + data.getD 3 0))) rest := by
  simp only [dvalue_recv, socket_recv_one, h, bind, Except.bind, List.getD_cons_zero]
  rfl

theorem dvalue_recv_string_bytes (b0 b1 b2 b3 : Nat) (s : List Nat) :
    dvalue_recv (DVALUE_STRING :: b0 :: b1 :: b2 :: b3 :: s)
      = recv_buffer (dvalue_new DVALUE_STRING) DVALUE_STRING
          (to_size_t (wrap_int ↑(b0 <<< 24 + b1 <<< 16 + b2 <<< 8 + b3))) s := by
  have h := dvalue_recv_string_tag _ _ _ (socket_recv_four b0 b1 b2 b3 s)
  simp only [List.getD_cons_zero, List.getD_cons_succ] at h
  exact h

/-- What `dvalue_recv` returns on a long-form STRING of fewer than `2 ^ 31`
bytes. -/
theorem dvalue_recv_string (s rest : List Nat) (hlen : s.length < 2 ^ 31) :
    dvalue_recv (DVALUE_STRING :: s.length / 2 ^ 24 % 256 :: s.length / 2 ^ 16 % 256
        :: s.length / 2 ^ 8 % 256 :: s.length % 256 :: (s ++ rest))
      = .ok ({ dvalue_new DVALUE_STRING with
               buffer := { data := s ++ [0], size := s.length } }, rest) := by
  rw [dvalue_recv_string_bytes, recompose_length _ (by omega), wrap_int_small _ hlen,
    to_size_t_small _ hlen, recv_buffer_ok]
  rfl

/-- What `dvalue_send` writes for one of the payload-free tags `19..1D`. -/
theorem dvalue_send_simple (tag : Nat) (h : 0x18 < tag ∧ tag < 0x1E) :
    dvalue_send (dvalue_new tag) = .ok [tag] := by
  obtain ⟨h1, h2⟩ := h
  interval_cases tag <;> rfl

/-- What `dvalue_recv` returns on one of the payload-free tags `19..1D`. -/
theorem dvalue_recv_simple (tag : Nat) (rest : List Nat) (h : 0x18 < tag ∧ tag < 0x1E) :
    dvalue_recv (tag :: rest) = .ok (dvalue_new tag, rest) := by
  rw [dvalue_recv_default tag rest (by omega)]
  have a1 : ¬ (0x60 ≤ tag ∧ tag ≤ 0x7F) := by omega
  have a2 : ¬ (0x80 ≤ tag ∧ tag ≤ 0xBF) := by omega
  have a3 : ¬ (0xC0 ≤ tag) := by omega
  simp only [a1, a2, a3, if_false]

/-! ## Initial bytes outside the tag table -/

/-- C2, as the claim states it, fails: on the one-byte stream `01`, a byte that
the wire-format table does not list, `dvalue_recv` returns a value (its tag is
the byte itself) instead of failing. -/
theorem recv_unlisted_tag_returns :
    dvalue_recv [0x01] = .ok (dvalue_new 0x01, []) := by
  decide

/-- C2, amended: for every stream whose first byte lies in `0x01..0x0F` or in
`0x23..0x5F`, `dvalue_recv` reads that one byte and returns the zeroed value
whose tag is the byte; the rest of the stream is left unread and nothing is
reported. -/
theorem recv_unlisted_tag (ib : Nat) (rest : List Nat)
    (h : (0x01 ≤ ib ∧ ib ≤ 0x0F) ∨ (0x23 ≤ ib ∧ ib ≤ 0x5F)) :
    dvalue_recv (ib :: rest) = .ok (dvalue_new ib, rest) := by
  rw [dvalue_recv_default ib rest (by omega)]
  have a1 : ¬ (0x60 ≤ ib ∧ ib ≤ 0x7F) := by omega
  have a2 : ¬ (0x80 ≤ ib ∧ ib ≤ 0xBF) := by omega
  have a3 : ¬ (0xC0 ≤ ib) := by omega
  simp only [a1, a2, a3, if_false]

theorem recv_unlisted_tag_witness :
    dvalue_recv [0x23, 0x14, 0x00] = .ok (dvalue_new 0x23, [0x14, 0x00]) :=
  recv_unlisted_tag 0x23 [0x14, 0x00] (by decide)

/-- C3, as the claim states it, fails: on the stream `F0 05` the decoder
returns the INT `0x3005`; the byte `F0` opens a medium int. -/
theorem recv_F0_returns :
    dvalue_recv [0xF0, 0x05] = .ok (dvalue_new_int 0x3005, []) := by
  decide

/-- C3, amended: for every stream that starts with `F0` and one more byte `b`,
`dvalue_recv` consumes the two bytes and returns the INT `0x3000 + b`; on the
stream that holds `F0` alone the read of the second byte never completes. No
error is reported in either case. -/
theorem recv_F0_is_medium_int :
    (∀ (b : Nat) (rest : List Nat),
      dvalue_recv (0xF0 :: b :: rest) = .ok (dvalue_new_int (0x3000 + ↑b), rest))
    ∧ dvalue_recv [0xF0] = .error fault.short_read := by
  refine ⟨?_, by decide⟩
  intro b rest
  rw [dvalue_recv_default 0xF0 (b :: rest) (by decide)]
  simp [socket_recv_one, Except.bind, dvalue_new, dvalue_new_int, Nat.shiftLeft_eq]

/-! ## Short forms -/

/-- C4: for every initial byte `ib` in `0xC0..0xFF` and every next byte `b`,
`dvalue_recv` consumes exactly the two bytes and returns the INT
`((ib - 0xC0) << 8) + b`, a value between 0 and 16383. -/
theorem recv_medium_int (ib b : Nat) (rest : List Nat)
    (hlo : 0xC0 ≤ ib) (hhi : ib ≤ 0xFF) (hb : b < 256) :
    dvalue_recv (ib :: b :: rest)
        = .ok (dvalue_new_int ↑((ib - 0xC0) <<< 8 + b), rest)
      ∧ (ib - 0xC0) <<< 8 + b = (ib - 0xC0) * 256 + b
      ∧ (ib - 0xC0) <<< 8 + b ≤ 16383 := by
  have hv : (ib - 0xC0) <<< 8 + b = (ib - 0xC0) * 256 + b := by
    simp [Nat.shiftLeft_eq]
  refine ⟨?_, hv, by omega⟩
  rw [dvalue_recv_default ib (b :: rest) (by omega)]
  have a1 : ¬ (0x60 ≤ ib ∧ ib ≤ 0x7F) := by omega
  have a2 : ¬ (0x80 ≤ ib ∧ ib ≤ 0xBF) := by omega
  simp only [a1, a2, hlo, if_false, if_true, socket_recv_one, Except.bind,
    List.getD_cons_zero, dvalue_new, dvalue_new_int]

theorem recv_medium_int_witness :
    dvalue_recv [0xFF, 0xFF, 0x00]
        = .ok (dvalue_new_int ↑((0xFF - 0xC0) <<< 8 + 0xFF), [0x00])
      ∧ (0xFF - 0xC0) <<< 8 + 0xFF = (0xFF - 0xC0) * 256 + 0xFF
      ∧ (0xFF - 0xC0) <<< 8 + 0xFF ≤ 16383 :=
  recv_medium_int 0xFF 0xFF [0x00] (by decide) (by decide) (by decide)

/-- C5: for every initial byte `ib` in `0x80..0xBF`, `dvalue_recv` consumes
exactly that byte and returns the INT `ib - 0x80`, a value between 0 and 63. -/
theorem recv_small_int (ib : Nat) (rest : List Nat)
    (hlo : 0x80 ≤ ib) (hhi : ib ≤ 0xBF) :
    dvalue_recv (ib :: rest) = .ok (dvalue_new_int (↑ib - 0x80), rest)
      ∧ (0 : Int) ≤ ↑ib - 0x80 ∧ (↑ib - 0x80 : Int) ≤ 63 := by
  refine ⟨?_, by omega, by omega⟩
  rw [dvalue_recv_default ib rest (by omega)]
  have a1 : ¬ (0x60 ≤ ib ∧ ib ≤ 0x7F) := by omega
  simp only [a1, hlo, hhi, and_self, if_false, if_true, dvalue_new, dvalue_new_int]

theorem recv_small_int_witness :
    dvalue_recv [0xBF, 0x01] = .ok (dvalue_new_int (↑(0xBF : Nat) - 0x80), [0x01])
      ∧ (0 : Int) ≤ ↑(0xBF : Nat) - 0x80 ∧ (↑(0xBF : Nat) - 0x80 : Int) ≤ 63 :=
  recv_small_int 0xBF [0x01] (by decide) (by decide)

/-- C6: for every initial byte `ib` in `0x60..0x7F` followed by at least
`ib - 0x60` bytes, `dvalue_recv` returns a STRING whose declared size is
`ib - 0x60` and whose buffer holds exactly the next `ib - 0x60` bytes of the
stream (then the terminating zero of the allocation); it consumes
`1 + (ib - 0x60)` bytes, so what follows them on the stream is left unread. -/
theorem recv_short_string (ib : Nat) (s : List Nat)
    (hlo : 0x60 ≤ ib) (hhi : ib ≤ 0x7F) (hlen : ib - 0x60 ≤ s.length) :
    dvalue_recv (ib :: s)
        = .ok ({ dvalue_new DVALUE_STRING with
                 buffer := { data := s.take (ib - 0x60) ++ [0], size := ib - 0x60 } },
               s.drop (ib - 0x60))
      ∧ (s.take (ib - 0x60) ++ [0]).take (ib - 0x60) = s.take (ib - 0x60)
      ∧ (ib :: s).length = (1 + (ib - 0x60)) + (s.drop (ib - 0x60)).length := by
  refine ⟨?_, ?_, ?_⟩
  · rw [dvalue_recv_default ib s (by omega)]
    simp only [hlo, hhi, and_self, if_true, recv_buffer, socket_recv_le s _ hlen, bind,
      Except.bind, pure, Except.pure, dvalue_new]
  · rw [List.take_append_of_le_length (by simp [hlen])]
    simp
  · simp only [List.length_cons, List.length_drop]
    omega

theorem recv_short_string_witness :
    dvalue_recv [0x62, 0x68, 0x69, 0x1B]
        = .ok ({ dvalue_new DVALUE_STRING with
                 buffer := { data := [0x68, 0x69, 0x1B].take (0x62 - 0x60) ++ [0],
                             size := 0x62 - 0x60 } },
               [0x68, 0x69, 0x1B].drop (0x62 - 0x60))
      ∧ ([0x68, 0x69, 0x1B].take (0x62 - 0x60) ++ [0]).take (0x62 - 0x60)
          = [0x68, 0x69, 0x1B].take (0x62 - 0x60)
      ∧ (0x62 :: [0x68, 0x69, 0x1B]).length
          = (1 + (0x62 - 0x60)) + ([0x68, 0x69, 0x1B].drop (0x62 - 0x60)).length :=
  recv_short_string 0x62 [0x68, 0x69, 0x1B] (by decide) (by decide) (by decide)

/-! ## Pointers -/

/-- C7, as the claim states it, fails: for the OBJ value of width 4 and address
`0xDEADBEEF`, `dvalue_send` writes the tag byte `1F` and nothing more: no
width byte and no address bytes. -/
theorem send_obj_writes_tag_only :
    dvalue_send (pointer_value DVALUE_OBJ 4 0xDEADBEEF) = .ok [0x1F] := by
  decide

/-- C7, amended: for a HEAPPTR value of width 4 and address `0xDEADBEEF`,
`dvalue_send` writes `22 04 DE AD BE EF`; for every HEAPPTR value of width `w`
in `{4, 8}` it writes the tag `22`, the width byte `w` and then the `w` low
bytes of the address, most significant first. For an OBJ, PTR or LIGHTFUNC
value it writes the tag byte alone. -/
theorem send_pointer_bytes :
    dvalue_send (dvalue_new_heapptr { addr := 0xDEADBEEF, size := 4 })
        = .ok [0x22, 0x04, 0xDE, 0xAD, 0xBE, 0xEF]
    ∧ (∀ v : dvalue, v.tag = DVALUE_HEAPPTR → v.ptr_value.size = 4 ∨ v.ptr_value.size = 8 →
        dvalue_send v = .ok (0x22 :: v.ptr_value.size
                              :: big_endian_bytes v.ptr_value.size v.ptr_value.addr))
    ∧ (∀ v : dvalue, v.tag = DVALUE_OBJ ∨ v.tag = DVALUE_PTR ∨ v.tag = DVALUE_LIGHTFUNC →
        dvalue_send v = .ok [v.tag]) := by
  refine ⟨by decide, ?_, ?_⟩
  · intro v ht hw
    exact dvalue_send_heapptr v ht (by omega)
  · intro v ht
    obtain ⟨tag, f, n, p, b⟩ := v
    simp only at ht
    rcases ht with ht | ht | ht <;> subst ht <;> rfl

theorem send_pointer_bytes_witness :
    dvalue_send (dvalue_new_heapptr { addr := 0x0123456789ABCDEF, size := 8 })
        = .ok [0x22, 0x08, 0x01, 0x23, 0x45, 0x67, 0x89, 0xAB, 0xCD, 0xEF]
    ∧ dvalue_send (pointer_value DVALUE_LIGHTFUNC 8 0x0123456789ABCDEF) = .ok [0x21] :=
  ⟨(send_pointer_bytes.2.1 (dvalue_new_heapptr { addr := 0x0123456789ABCDEF, size := 8 })
      (by decide) (by decide)).trans (by decide),
   send_pointer_bytes.2.2 (pointer_value DVALUE_LIGHTFUNC 8 0x0123456789ABCDEF) (by decide)⟩

/-- C8: for each of OBJ (`1F`, one class byte first), PTR (`20`), LIGHTFUNC
(`21`, two flag bytes first) and HEAPPTR (`22`), every width `w` in `{4, 8}`
and every `w` pointer bytes, `dvalue_recv` consumes the encoding and returns
the value of that tag whose pointer, as `dvalue_as_ptr` reads it, has width `w`
and for address the big-endian integer of the pointer bytes; that integer is
below `256 ^ w`, so the address bytes above the width are zero. -/
theorem recv_pointer (w c f0 f1 : Nat) (p rest : List Nat)
    (hw : w = 4 ∨ w = 8) (hp : p.length = w) (hb : ∀ b ∈ p, b < 256) :
    dvalue_recv (0x1F :: c :: w :: (p ++ rest))
        = .ok (pointer_value DVALUE_OBJ w (big_endian p), rest)
    ∧ dvalue_recv (0x20 :: w :: (p ++ rest))
        = .ok (pointer_value DVALUE_PTR w (big_endian p), rest)
    ∧ dvalue_recv (0x21 :: f0 :: f1 :: w :: (p ++ rest))
        = .ok (pointer_value DVALUE_LIGHTFUNC w (big_endian p), rest)
    ∧ dvalue_recv (0x22 :: w :: (p ++ rest))
        = .ok (pointer_value DVALUE_HEAPPTR w (big_endian p), rest)
    ∧ (∀ tag ∈ [DVALUE_OBJ, DVALUE_PTR, DVALUE_LIGHTFUNC, DVALUE_HEAPPTR],
        dvalue_tag (pointer_value tag w (big_endian p)) = tag
        ∧ dvalue_as_ptr (pointer_value tag w (big_endian p))
            = { addr := big_endian p, size := w })
    ∧ big_endian p < 256 ^ w := by
  have h8 : p.length ≤ 8 := by omega
  subst hp
  refine ⟨?_, ?_, ?_, ?_, ?_, big_endian_lt p hb⟩
  · exact (dvalue_recv_obj c _).trans (recv_ptr_ok _ _ p rest h8 hb)
  · exact (dvalue_recv_ptr _).trans (recv_ptr_ok _ _ p rest h8 hb)
  · exact (dvalue_recv_lightfunc f0 f1 _).trans (recv_ptr_ok _ _ p rest h8 hb)
  · exact (dvalue_recv_heapptr _).trans (recv_ptr_ok _ _ p rest h8 hb)
  · intro tag htag
    simp only [List.mem_cons, List.mem_singleton, List.not_mem_nil, or_false] at htag
    rcases htag with ht | ht | ht | ht <;> subst ht <;>
      simp [dvalue_tag, dvalue_as_ptr, pointer_value, dvalue_new, calloc_dvalue]

theorem recv_pointer_witness :
    dvalue_recv (0x1F :: 0x05 :: 4 :: ([0xDE, 0xAD, 0xBE, 0xEF] ++ [0x00]))
        = .ok (pointer_value DVALUE_OBJ 4 (big_endian [0xDE, 0xAD, 0xBE, 0xEF]), [0x00])
    ∧ big_endian [0xDE, 0xAD, 0xBE, 0xEF] = 0xDEADBEEF :=
  ⟨(recv_pointer 4 0x05 0x00 0x00 [0xDE, 0xAD, 0xBE, 0xEF] [0x00] (by decide) (by decide)
      (by decide)).1, by decide⟩

/-- C9, as the claim states it, fails: on the stream `20 02 AB CD`, whose width
byte is 2, `dvalue_recv` returns a PTR value of pointer width 2. -/
theorem recv_width_two_returns :
    dvalue_recv [0x20, 0x02, 0xAB, 0xCD] = .ok (pointer_value DVALUE_PTR 2 0xABCD, []) := by
  decide

/-- C9, amended: `dvalue_recv` does not check the width byte. For every width
byte `w` from 0 to 8 followed by `w` pointer bytes it returns the
pointer-carrying value of the tag read whose pointer width is `w`; the width of
the value is therefore 4 or 8 exactly when the width byte on the wire is. -/
theorem recv_pointer_width (c f0 f1 : Nat) (p rest : List Nat) (hw : p.length ≤ 8) :
    ∃ a : Nat,
      dvalue_recv (0x1F :: c :: p.length :: (p ++ rest))
          = .ok (pointer_value DVALUE_OBJ p.length a, rest)
      ∧ dvalue_recv (0x20 :: p.length :: (p ++ rest))
          = .ok (pointer_value DVALUE_PTR p.length a, rest)
      ∧ dvalue_recv (0x21 :: f0 :: f1 :: p.length :: (p ++ rest))
          = .ok (pointer_value DVALUE_LIGHTFUNC p.length a, rest)
      ∧ dvalue_recv (0x22 :: p.length :: (p ++ rest))
          = .ok (pointer_value DVALUE_HEAPPTR p.length a, rest)
      ∧ ∀ tag, ((pointer_value tag p.length a).ptr_value.size = 4
                  ∨ (pointer_value tag p.length a).ptr_value.size = 8)
                ↔ (p.length = 4 ∨ p.length = 8) := by
  refine ⟨recv_ptr_loop p 0 p.length 0, ?_, ?_, ?_, ?_, ?_⟩
  · exact (dvalue_recv_obj c _).trans (recv_ptr_run _ _ p rest hw)
  · exact (dvalue_recv_ptr _).trans (recv_ptr_run _ _ p rest hw)
  · exact (dvalue_recv_lightfunc f0 f1 _).trans (recv_ptr_run _ _ p rest hw)
  · exact (dvalue_recv_heapptr _).trans (recv_ptr_run _ _ p rest hw)
  · intro tag
    simp [pointer_value]

theorem recv_pointer_width_witness :
    ∃ a : Nat,
      dvalue_recv (0x1F :: 0x05 :: 3 :: ([0x01, 0x02, 0x03] ++ []))
          = .ok (pointer_value DVALUE_OBJ 3 a, [])
      ∧ dvalue_recv (0x20 :: 3 :: ([0x01, 0x02, 0x03] ++ []))
          = .ok (pointer_value DVALUE_PTR 3 a, [])
      ∧ dvalue_recv (0x21 :: 0x00 :: 0x00 :: 3 :: ([0x01, 0x02, 0x03] ++ []))
          = .ok (pointer_value DVALUE_LIGHTFUNC 3 a, [])
      ∧ dvalue_recv (0x22 :: 3 :: ([0x01, 0x02, 0x03] ++ []))
          = .ok (pointer_value DVALUE_HEAPPTR 3 a, [])
      ∧ ∀ tag, ((pointer_value tag 3 a).ptr_value.size = 4
                  ∨ (pointer_value tag 3 a).ptr_value.size = 8)
                ↔ ((3 : Nat) = 4 ∨ (3 : Nat) = 8) :=
  recv_pointer_width 0x05 0x00 0x00 [0x01, 0x02, 0x03] [] (by decide)

/-! ## Floats -/

/-- C10: for the FLOAT 1.0 (pattern `0x3FF0000000000000`) `dvalue_send` writes
the tag `1E` and then `3F F0 00 00 00 00 00 00`; for every FLOAT value it
writes the tag and the eight bytes of the 64-bit pattern, most significant
first; and `dvalue_recv` of `1E` and those eight bytes returns the FLOAT with
the same pattern. -/
theorem float_wire_order :
    dvalue_send (dvalue_new_float 0x3FF0000000000000)
        = .ok [0x1E, 0x3F, 0xF0, 0x00, 0x00, 0x00, 0x00, 0x00, 0x00]
    ∧ (∀ v : dvalue, v.tag = DVALUE_FLOAT →
        dvalue_send v = .ok (0x1E :: big_endian_bytes 8 v.float_value))
    ∧ (∀ (bits : Nat) (rest : List Nat), bits < 2 ^ 64 →
        dvalue_recv (0x1E :: (big_endian_bytes 8 bits ++ rest))
          = .ok (dvalue_new_float bits, rest)) := by
  refine ⟨by decide, dvalue_send_float, ?_⟩
  intro bits rest hbits
  rw [dvalue_recv_float _ rest (big_endian_bytes_length 8 bits) (big_endian_bytes_lt 8 bits),
    big_endian_of_bytes, Nat.mod_eq_of_lt (by norm_num at hbits ⊢; exact hbits)]

theorem float_wire_order_witness :
    dvalue_send (dvalue_new_float 0xC000000000000001)
        = .ok (0x1E :: big_endian_bytes 8 0xC000000000000001)
    ∧ dvalue_recv (0x1E :: (big_endian_bytes 8 0xC000000000000001 ++ [0x00]))
        = .ok (dvalue_new_float 0xC000000000000001, [0x00]) :=
  ⟨float_wire_order.2.1 (dvalue_new_float 0xC000000000000001) (by decide),
   float_wire_order.2.2 0xC000000000000001 [0x00] (by decide)⟩

/-! ## Round trip -/

/-- C1, as the claim states it, fails: for the PTR value of width 4 and address
`0xDEADBEEF`, `dvalue_send` writes the single byte `20`, and `dvalue_recv` on
that byte waits for a width byte that was never written: it returns no value. -/
theorem round_trip_fails_for_ptr :
    dvalue_send (pointer_value DVALUE_PTR 4 0xDEADBEEF) = .ok [0x20]
    ∧ dvalue_recv [0x20] = .error fault.short_read := by
  decide

/-- C1, amended: for every value `v` that is UNDEF, UNUSED, NULL, TRUE or
FALSE, an INT within the 32-bit range, a FLOAT, a HEAPPTR of width 4 or 8 whose
address fits the width, or a STRING whose buffer holds `size` nonzero bytes
(fewer than `2 ^ 31`) before its terminating zero, `dvalue_send` writes a byte
sequence from which `dvalue_recv` reads exactly those bytes, whatever follows
them on the stream, and returns a value equal to `v`. -/
theorem codec_round_trip (v : dvalue) (rest : List Nat) (h : encodable v) :
    ∃ bytes, dvalue_send v = .ok bytes ∧ dvalue_recv (bytes ++ rest) = .ok (v, rest) := by
  rcases h with ⟨ht, hv⟩ | ⟨hv, hlo, hhi⟩ | ⟨hv, hf⟩ | ⟨hv, hw, ha⟩ | ⟨hv, hd, hl, hs, hn⟩
  · have ht2 : 0x18 < v.tag ∧ v.tag < 0x1E := by
      rcases ht with h | h | h | h | h <;> rw [h] <;> decide
    generalize v.tag = t at hv ht2
    subst hv
    exact ⟨[t], dvalue_send_simple t ht2, dvalue_recv_simple t rest ht2⟩
  · generalize v.int_value = n at hv hlo hhi
    subst hv
    refine ⟨_, dvalue_send_int n, ?_⟩
    have hn : wrap_int ↑((n / 2 ^ 24 % 256).toNat <<< 24 + (n / 2 ^ 16 % 256).toNat <<< 16
        + (n / 2 ^ 8 % 256).toNat <<< 8 + (n % 256).toNat) = n := by
      simp only [wrap_int, Nat.shiftLeft_eq]
      omega
    simp only [List.cons_append, List.nil_append]
    rw [dvalue_recv_int, hn]
  · generalize v.float_value = bits at hv hf
    subst hv
    refine ⟨_, dvalue_send_float _ rfl, ?_⟩
    rw [List.cons_append,
      dvalue_recv_float _ rest (big_endian_bytes_length 8 _) (big_endian_bytes_lt 8 _),
      big_endian_of_bytes]
    have hb : (dvalue_new_float bits).float_value = bits := rfl
    rw [hb, Nat.mod_eq_of_lt (by norm_num at hf ⊢; exact hf)]
  · generalize v.ptr_value = p at hv hw ha
    subst hv
    obtain ⟨a, w⟩ := p
    simp only at hw ha
    refine ⟨_, dvalue_send_heapptr _ rfl (by show w ≤ 8; omega), ?_⟩
    have hlen := big_endian_bytes_length w a
    have h8 : (big_endian_bytes w a).length ≤ 8 := by omega
    have hr := recv_ptr_ok DVALUE_HEAPPTR DVALUE_HEAPPTR _ rest h8 (big_endian_bytes_lt w a)
    rw [hlen, big_endian_of_bytes, Nat.mod_eq_of_lt ha] at hr
    show dvalue_recv (DVALUE_HEAPPTR :: w :: big_endian_bytes w a ++ rest) = _
    rw [List.cons_append, List.cons_append, dvalue_recv_heapptr, hr]
    rfl
  · obtain ⟨tag, f, n, p, ⟨data, size⟩⟩ := v
    simp only [dvalue_new, calloc_dvalue, dvalue.mk.injEq, and_true] at hv
    obtain ⟨rfl, rfl, rfl, rfl⟩ := hv
    simp only at hd hl hs hn
    have hlen : (data.take size).length = size := by
      rw [List.length_take]
      omega
    have hn2 : (data.take size).length < 2 ^ 31 := by omega
    refine ⟨_, dvalue_send_string _ (data.take size) rfl hd hs hn2, ?_⟩
    simp only [List.cons_append]
    rw [dvalue_recv_string _ rest hn2, hlen, ← hd]
    rfl

theorem codec_round_trip_witness :
    encodable (dvalue_new_string [0x68, 0x69])
    ∧ ∃ bytes, dvalue_send (dvalue_new_string [0x68, 0x69]) = .ok bytes
        ∧ dvalue_recv (bytes ++ [0x00]) = .ok (dvalue_new_string [0x68, 0x69], [0x00]) :=
  ⟨by decide, codec_round_trip (dvalue_new_string [0x68, 0x69]) [0x00] (by decide)⟩

/-! ## Long forms -/

/-- What `dvalue_send` writes for any value tagged INT. -/
theorem dvalue_send_int_tag (v : dvalue) (ht : v.tag = DVALUE_INT) :
    dvalue_send v
      = .ok [DVALUE_INT, (v.int_value / 2 ^ 24 % 256).toNat, (v.int_value / 2 ^ 16 % 256).toNat,
             (v.int_value / 2 ^ 8 % 256).toNat, (v.int_value % 256).toNat] := by
  obtain ⟨tag, f, n, p, b⟩ := v
  simp only at ht
  subst ht
  rfl

theorem big_endian_bytes_four (u : Nat) :
    big_endian_bytes 4 u = [u / 256 ^ 3 % 256, u / 256 ^ 2 % 256, u / 256 % 256, u % 256] := by
  simp [big_endian_bytes, List.range_succ]

theorem big_endian_bytes_two (u : Nat) :
    big_endian_bytes 2 u = [u / 256 % 256, u % 256] := by
  simp [big_endian_bytes, List.range_succ]

/-- C11: for every INT value within the signed 32-bit range, short-form
candidates and negative numbers included, `dvalue_send` writes exactly five
bytes: the tag `14` and the four bytes of the two's-complement pattern of the
number, most significant first. -/
theorem send_int_long_form (v : dvalue) (ht : v.tag = DVALUE_INT)
    (hlo : -2 ^ 31 ≤ v.int_value) (hhi : v.int_value < 2 ^ 31) :
    dvalue_send v = .ok (0x14 :: big_endian_bytes 4 (v.int_value % 2 ^ 32).toNat)
    ∧ (0x14 :: big_endian_bytes 4 (v.int_value % 2 ^ 32).toNat).length = 5 := by
  refine ⟨?_, by simp [big_endian_bytes_length]⟩
  rw [dvalue_send_int_tag v ht, big_endian_bytes_four]
  have e3 : (v.int_value / 2 ^ 24 % 256).toNat = (v.int_value % 2 ^ 32).toNat / 256 ^ 3 % 256 := by
    omega
  have e2 : (v.int_value / 2 ^ 16 % 256).toNat = (v.int_value % 2 ^ 32).toNat / 256 ^ 2 % 256 := by
    omega
  have e1 : (v.int_value / 2 ^ 8 % 256).toNat = (v.int_value % 2 ^ 32).toNat / 256 % 256 := by
    omega
  have e0 : (v.int_value % 256).toNat = (v.int_value % 2 ^ 32).toNat % 256 := by
    omega
  rw [e3, e2, e1, e0]

theorem send_int_long_form_witness :
    dvalue_send (dvalue_new_int 5) = .ok [0x14, 0x00, 0x00, 0x00, 0x05]
    ∧ dvalue_send (dvalue_new_int (-2)) = .ok [0x14, 0xFF, 0xFF, 0xFF, 0xFE] :=
  ⟨(send_int_long_form (dvalue_new_int 5) rfl (by decide) (by decide)).1.trans (by decide),
   (send_int_long_form (dvalue_new_int (-2)) rfl (by decide) (by decide)).1.trans (by decide)⟩

theorem wrap_int_signed32 (b0 b1 b2 b3 : Nat)
    (h0 : b0 < 256) (h1 : b1 < 256) (h2 : b2 < 256) (h3 : b3 < 256) :
    wrap_int ↑(b0 <<< 24 + b1 <<< 16 + b2 <<< 8 + b3) = signed32 (big_endian [b0, b1, b2, b3]) := by
  have hb : big_endian [b0, b1, b2, b3] = ((b0 * 256 + b1) * 256 + b2) * 256 + b3 := by
    simp [big_endian]
  rw [hb]
  simp only [wrap_int, signed32, Nat.shiftLeft_eq]
  split <;> omega

/-- C12: for every four bytes `b0 b1 b2 b3`, `dvalue_recv` on `14 b0 b1 b2 b3`
consumes the five bytes and returns the INT whose value is the big-endian
two's-complement reading of the four bytes, a number of the signed 32-bit
range; `FF FF FF FF` gives -1 and `80 00 00 00` gives -2147483648. -/
theorem recv_int_long_form (b0 b1 b2 b3 : Nat) (rest : List Nat)
    (h0 : b0 < 256) (h1 : b1 < 256) (h2 : b2 < 256) (h3 : b3 < 256) :
    dvalue_recv (0x14 :: b0 :: b1 :: b2 :: b3 :: rest)
        = .ok (dvalue_new_int (signed32 (big_endian [b0, b1, b2, b3])), rest)
    ∧ -2 ^ 31 ≤ signed32 (big_endian [b0, b1, b2, b3])
    ∧ signed32 (big_endian [b0, b1, b2, b3]) < 2 ^ 31
    ∧ dvalue_recv [0x14, 0xFF, 0xFF, 0xFF, 0xFF] = .ok (dvalue_new_int (-1), [])
    ∧ dvalue_recv [0x14, 0x80, 0x00, 0x00, 0x00] = .ok (dvalue_new_int (-2147483648), []) := by
  have hlt := big_endian_lt [b0, b1, b2, b3] (by
    intro b hb
    simp only [List.mem_cons, List.mem_singleton, List.not_mem_nil, or_false] at hb
    rcases hb with h | h | h | h <;> rw [h] <;> assumption)
  simp only [List.length_cons, List.length_nil] at hlt
  refine ⟨?_, ?_, ?_, by decide, by decide⟩
  · rw [dvalue_recv_int, wrap_int_signed32 b0 b1 b2 b3 h0 h1 h2 h3]
  · unfold signed32
    split <;> omega
  · unfold signed32
    split <;> omega

theorem recv_int_long_form_witness :
    dvalue_recv (0x14 :: 0x12 :: 0x34 :: 0x56 :: 0x78 :: [0x00])
        = .ok (dvalue_new_int (signed32 (big_endian [0x12, 0x34, 0x56, 0x78])), [0x00])
    ∧ signed32 (big_endian [0x12, 0x34, 0x56, 0x78]) = 0x12345678 :=
  ⟨(recv_int_long_form 0x12 0x34 0x56 0x78 [0x00] (by decide) (by decide) (by decide)
      (by decide)).1, by decide⟩

theorem socket_recv_two_bytes (a b : Nat) (s : List Nat) :
    socket_recv (a :: b :: s) 2 = .ok ([a, b], s) := socket_recv_two a b s

/-- The STRING16 case reads a 2-byte length and hands over to the buffer tail. -/
theorem dvalue_recv_string16_tag (s data rest : List Nat)
    (h : socket_recv s 2 = .ok (data, rest)) :
    dvalue_recv (DVALUE_STRING16 :: s)
      = recv_buffer (dvalue_new DVALUE_STRING16) DVALUE_STRING
          (to_size_t ↑(data.getD 0 0 <<< 8 + data.getD 1 0)) rest := by
  simp only [dvalue_recv, socket_recv_one, h, bind, Except.bind, List.getD_cons_zero]
  rfl

/-- The long-form BUF case reads a 4-byte length and hands over to the buffer
tail. -/
theorem dvalue_recv_buf_tag (s data rest : List Nat)
    (h : socket_recv s 4 = .ok (data, rest)) :
    dvalue_recv (DVALUE_BUF :: s)
      = recv_buffer (dvalue_new DVALUE_BUF) DVALUE_BUF
          (to_size_t (wrap_int ↑(data.getD 0 0 <<< 24 + data.getD 1 0 <<< 16
            + data.getD 2 0 <<< 8 + data.getD 3 0))) rest := by
  simp only [dvalue_recv, socket_recv_one, h, bind, Except.bind, List.getD_cons_zero]
  rfl

/-- The BUF16 case reads a 2-byte length and hands over to the buffer tail. -/
theorem dvalue_recv_buf16_tag (s data rest : List Nat)
    (h : socket_recv s 2 = .ok (data, rest)) :
    dvalue_recv (DVALUE_BUF16 :: s)
      = recv_buffer (dvalue_new DVALUE_BUF16) DVALUE_BUF
          (to_size_t ↑(data.getD 0 0 <<< 8 + data.getD 1 0)) rest := by
  simp only [dvalue_recv, socket_recv_one, h, bind, Except.bind, List.getD_cons_zero]
  rfl

theorem recompose_length16 (n : Nat) (h : n ≤ 65535) :
    to_size_t ↑((n / 256 % 256) <<< 8 + n % 256) = n := by
  simp only [to_size_t, Nat.shiftLeft_eq]
  omega

theorem recompose_length32 (n : Nat) (h : n ≤ 65535) :
    to_size_t (wrap_int ↑((n / 256 ^ 3 % 256) <<< 24 + (n / 256 ^ 2 % 256) <<< 16
      + (n / 256 % 256) <<< 8 + n % 256)) = n := by
  have e : (n / 256 ^ 3 % 256) <<< 24 + (n / 256 ^ 2 % 256) <<< 16
      + (n / 256 % 256) <<< 8 + n % 256 = n := by
    simp only [Nat.shiftLeft_eq]
    omega
  rw [e, wrap_int_small n (by omega), to_size_t_small n (by omega)]

/-- C14: for every payload `p` of at most 65535 bytes, `dvalue_recv` on `16`,
the length as two big-endian bytes and `p` returns the same STRING value (size
the length of `p`, bytes `p`) as on `15`, the length as four big-endian bytes
and `p`; `18` and `17` likewise return one and the same BUF value. The tag
returned is STRING (`15`) or BUF (`17`), never `16` or `18`. -/
theorem recv_length16_forms (p rest : List Nat) (hn : p.length ≤ 65535) :
    dvalue_recv (0x16 :: (big_endian_bytes 2 p.length ++ (p ++ rest)))
        = .ok (buffer_value DVALUE_STRING p, rest)
    ∧ dvalue_recv (0x15 :: (big_endian_bytes 4 p.length ++ (p ++ rest)))
        = .ok (buffer_value DVALUE_STRING p, rest)
    ∧ dvalue_recv (0x18 :: (big_endian_bytes 2 p.length ++ (p ++ rest)))
        = .ok (buffer_value DVALUE_BUF p, rest)
    ∧ dvalue_recv (0x17 :: (big_endian_bytes 4 p.length ++ (p ++ rest)))
        = .ok (buffer_value DVALUE_BUF p, rest)
    ∧ (buffer_value DVALUE_STRING p).tag = 0x15
    ∧ (buffer_value DVALUE_BUF p).tag = 0x17
    ∧ (buffer_value DVALUE_STRING p).buffer.size = p.length
    ∧ (buffer_value DVALUE_BUF p).buffer.size = p.length := by
  rw [big_endian_bytes_two, big_endian_bytes_four]
  simp only [List.cons_append, List.nil_append]
  refine ⟨?_, ?_, ?_, ?_, rfl, rfl, rfl, rfl⟩
  · have h := dvalue_recv_string16_tag _ _ _
      (socket_recv_two (p.length / 256 % 256) (p.length % 256) (p ++ rest))
    simp only [List.getD_cons_zero, List.getD_cons_succ] at h
    rw [h, recompose_length16 _ hn, recv_buffer_ok]
    rfl
  · have h := dvalue_recv_string_tag _ _ _
      (socket_recv_four (p.length / 256 ^ 3 % 256) (p.length / 256 ^ 2 % 256)
        (p.length / 256 % 256) (p.length % 256) (p ++ rest))
    simp only [List.getD_cons_zero, List.getD_cons_succ] at h
    rw [h, recompose_length32 _ hn, recv_buffer_ok]
    rfl
  · have h := dvalue_recv_buf16_tag _ _ _
      (socket_recv_two (p.length / 256 % 256) (p.length % 256) (p ++ rest))
    simp only [List.getD_cons_zero, List.getD_cons_succ] at h
    rw [h, recompose_length16 _ hn, recv_buffer_ok]
    rfl
  · have h := dvalue_recv_buf_tag _ _ _
      (socket_recv_four (p.length / 256 ^ 3 % 256) (p.length / 256 ^ 2 % 256)
        (p.length / 256 % 256) (p.length % 256) (p ++ rest))
    simp only [List.getD_cons_zero, List.getD_cons_succ] at h
    rw [h, recompose_length32 _ hn, recv_buffer_ok]
    rfl

theorem recv_length16_forms_witness :
    dvalue_recv [0x16, 0x00, 0x02, 0x68, 0x69, 0x1B]
        = .ok (buffer_value DVALUE_STRING [0x68, 0x69], [0x1B])
    ∧ dvalue_recv [0x15, 0x00, 0x00, 0x00, 0x02, 0x68, 0x69, 0x1B]
        = .ok (buffer_value DVALUE_STRING [0x68, 0x69], [0x1B]) :=
  ⟨(recv_length16_forms [0x68, 0x69] [0x1B] (by decide)).1,
   (recv_length16_forms [0x68, 0x69] [0x1B] (by decide)).2.1⟩

/-! ## Strings on the way out -/

theorem strlen_append_zero (p : List Nat) : strlen (p ++ [0]) = strlen p := by
  induction p with
  | nil => simp [strlen]
  | cons x xs ih =>
    unfold strlen at ih ⊢
    by_cases hx : x = 0
    · subst hx
      simp
    · rw [List.cons_append, List.takeWhile_cons_of_pos (by simpa using hx),
        List.takeWhile_cons_of_pos (by simpa using hx), List.length_cons, List.length_cons, ih]

theorem strlen_le (p : List Nat) : strlen p ≤ p.length := by
  induction p with
  | nil => simp [strlen]
  | cons x xs ih =>
    unfold strlen at ih ⊢
    by_cases hx : x = 0
    · subst hx
      simp
    · rw [List.takeWhile_cons_of_pos (by simpa using hx), List.length_cons, List.length_cons]
      omega

theorem strlen_of_nonzero (p : List Nat) (h : ∀ b ∈ p, b ≠ 0) : strlen p = p.length := by
  rw [← strlen_append_zero, strlen_terminated p h]

/-- What `dvalue_send` writes for any value tagged STRING whose C string is
shorter than `2 ^ 31`. -/
theorem dvalue_send_string_tag (v : dvalue) (ht : v.tag = DVALUE_STRING)
    (hk : strlen v.buffer.data < 2 ^ 31) :
    dvalue_send v
      = .ok (DVALUE_STRING :: (big_endian_bytes 4 (strlen v.buffer.data)
              ++ v.buffer.data.take (strlen v.buffer.data))) := by
  have h1 : strlen v.buffer.data % 2 ^ 32 = strlen v.buffer.data := by omega
  have h2 : (wrap_int ↑(strlen v.buffer.data)).toNat = strlen v.buffer.data := by
    simp only [wrap_int]
    omega
  rw [big_endian_bytes_four]
  obtain ⟨tag, f, n, p, b⟩ := v
  simp only at ht h1 h2 hk ⊢
  subst ht
  simp only [dvalue_send, h1, h2, socket_send, pure, Except.pure]
  rfl

/-- C13, as the claim states it, fails: the stream `63 61 00 62` decodes to a
STRING of declared size 3 whose payload `61 00 62` contains a zero byte; for
that value `dvalue_send` writes the length 1 and the single payload byte `61`. -/
theorem send_string_stops_at_zero :
    dvalue_recv [0x63, 0x61, 0x00, 0x62] = .ok (buffer_value DVALUE_STRING [0x61, 0x00, 0x62], [])
    ∧ dvalue_send (buffer_value DVALUE_STRING [0x61, 0x00, 0x62])
        = .ok [0x15, 0x00, 0x00, 0x00, 0x01, 0x61] := by
  decide

/-- C13, amended: for every STRING value with payload `p` of fewer than
`2 ^ 31` bytes (its buffer is `p` and the terminating zero), `dvalue_send`
writes `15`, then `L` as a 4-byte big-endian length, then the first `L` bytes
of `p`, where `L` is the number of bytes of `p` before its first zero byte;
when `p` holds no zero byte, `L` is the declared size and all of `p` is
written. -/
theorem send_string_c_length (v : dvalue) (p : List Nat) (ht : v.tag = DVALUE_STRING)
    (hd : v.buffer.data = p ++ [0]) (hn : p.length < 2 ^ 31) :
    dvalue_send v = .ok (0x15 :: (big_endian_bytes 4 (strlen p) ++ p.take (strlen p)))
    ∧ ((∀ b ∈ p, b ≠ 0) →
        dvalue_send v = .ok (0x15 :: (big_endian_bytes 4 p.length ++ p))) := by
  have hle := strlen_le p
  have hs : strlen v.buffer.data = strlen p := by rw [hd, strlen_append_zero]
  have hsend : dvalue_send v
      = .ok (0x15 :: (big_endian_bytes 4 (strlen p) ++ p.take (strlen p))) := by
    rw [dvalue_send_string_tag v ht (by omega), hs, hd,
      List.take_append_of_le_length hle]
  refine ⟨hsend, ?_⟩
  intro hnz
  rw [hsend, strlen_of_nonzero p hnz, List.take_length]

theorem send_string_c_length_witness :
    dvalue_send (buffer_value DVALUE_STRING [0x68, 0x69])
        = .ok (0x15 :: (big_endian_bytes 4 (strlen [0x68, 0x69])
                ++ [0x68, 0x69].take (strlen [0x68, 0x69])))
    ∧ dvalue_send (buffer_value DVALUE_STRING [0x68, 0x69])
        = .ok [0x15, 0x00, 0x00, 0x00, 0x02, 0x68, 0x69] :=
  ⟨(send_string_c_length (buffer_value DVALUE_STRING [0x68, 0x69]) [0x68, 0x69] rfl rfl
      (by decide)).1,
   ((send_string_c_length (buffer_value DVALUE_STRING [0x68, 0x69]) [0x68, 0x69] rfl rfl
      (by decide)).2 (by decide)).trans (by decide)⟩

/-! ## Copies -/

/-- C15 on the code: `dvalue_dup` of the STRING at address 1 of `sample_heap`
makes a record at address 3 that holds the same buffer address 2 as the
original, and allocates no buffer; `dvalue_free` of the copy releases that
buffer, so the original is left pointing at freed memory, and `dvalue_free` of
the original then frees the same buffer a second time. -/
theorem dup_shares_buffer :
    (dvalue_dup sample_heap 1).map (fun r => (r.1.records.lookup r.2, r.1.buffers, r.2))
        = .ok (sample_heap.records.lookup 1, sample_heap.buffers, 3)
    ∧ ((dvalue_dup sample_heap 1).bind (fun r => dvalue_free r.1 r.2)).map
          (fun h => (h.records.lookup 1, h.buffers.lookup 2))
        = .ok (sample_heap.records.lookup 1, none)
    ∧ ((dvalue_dup sample_heap 1).bind (fun r => dvalue_free r.1 r.2)).bind
          (fun h => dvalue_free h 1)
        = .error heap_fault.invalid_free := by
  decide

/-! ## Display -/

theorem hex_padded_succ (k n : Nat) :
    hex_padded (k + 1) n = hex_padded k (n / 16) ++ [Nat.digitChar (n % 16)] := by
  unfold hex_padded
  rw [List.range_succ, List.map_append]
  congr 1
  · apply List.map_congr_left
    intro i hi
    have hi2 : i < k := List.mem_range.mp hi
    have e : k + 1 - 1 - i = (k - 1 - i) + 1 := by omega
    rw [e, pow_succ, Nat.div_div_eq_div_mul, Nat.mul_comm]
  · simp

theorem hex_padded_zero (k : Nat) : hex_padded k 0 = List.replicate k '0' := by
  induction k with
  | zero => rfl
  | succ k ih =>
    rw [hex_padded_succ, Nat.zero_div, ih, List.replicate_succ']
    rfl

theorem hex_padded_length (k n : Nat) : (hex_padded k n).length = k := by
  simp [hex_padded]

/-- Padding the shortest digits of `n` to `k + 1` characters gives the
fixed-width digits of `n`, when `n` fits `k + 1` digits. -/
theorem hex_min_padded :
    ∀ (k fuel n : Nat), k + 1 ≤ fuel → n < 16 ^ (k + 1) →
      List.replicate (k + 1 - (hex_min fuel n).length) '0' ++ hex_min fuel n
        = hex_padded (k + 1) n := by
  intro k
  induction k with
  | zero =>
    intro fuel n hf hn
    obtain ⟨f, rfl⟩ : ∃ f, fuel = f + 1 := ⟨fuel - 1, by omega⟩
    have h16 : n < 16 := by simpa using hn
    rw [hex_min, if_pos h16, hex_padded_succ, Nat.mod_eq_of_lt h16]
    rfl
  | succ k ih =>
    intro fuel n hf hn
    obtain ⟨f, rfl⟩ : ∃ f, fuel = f + 1 := ⟨fuel - 1, by omega⟩
    rw [hex_padded_succ]
    by_cases h16 : n < 16
    · rw [hex_min, if_pos h16, Nat.div_eq_of_lt h16, hex_padded_zero, Nat.mod_eq_of_lt h16]
      rfl
    · have hq : n / 16 < 16 ^ (k + 1) := by
        rw [Nat.div_lt_iff_lt_mul (by norm_num)]
        rw [pow_succ] at hn
        exact hn
      rw [hex_min, if_neg h16, ← ih f (n / 16) (by omega) hq, List.length_append,
        List.length_singleton, ← List.append_assoc]
      congr 2
      congr 1
      omega

theorem printf_x_eq (k n : Nat) (hk : 1 ≤ k) (hk16 : k ≤ 16) (hn : n < 16 ^ k) :
    printf_x k n = hex_padded k n := by
  obtain ⟨j, rfl⟩ : ∃ j, k = j + 1 := ⟨k - 1, by omega⟩
  exact hex_min_padded j 16 n hk16 hn

theorem print_duktape_ptr_eq (w a : Nat) (hw : w = 4 ∨ w = 8) (ha : a < 256 ^ w) :
    print_duktape_ptr { addr := a, size := w } = hex_padded (2 * w) a ++ ['h'] := by
  rcases hw with rfl | rfl
  · have h1 : a % 2 ^ 32 = a := Nat.mod_eq_of_lt (by norm_num at ha ⊢; exact ha)
    simp only [print_duktape_ptr, h1]
    rw [printf_x_eq 8 a (by decide) (by decide) (by norm_num at ha ⊢; exact ha)]
    rfl
  · have h1 : a % 2 ^ 64 = a := Nat.mod_eq_of_lt (by norm_num at ha ⊢; exact ha)
    simp only [print_duktape_ptr, h1]
    rw [printf_x_eq 16 a (by decide) (by decide) (by norm_num at ha ⊢; exact ha)]
    rfl

/-- C16, as the claim states it, fails: for the HEAPPTR of width 4 and address
`0xDEADBEEF` the text printed has a space after the opening brace and one
before the closing brace; it is not the text without them. -/
theorem print_heapptr_has_spaces :
    dvalue_print (fun _ => []) (pointer_value DVALUE_HEAPPTR 4 0xDEADBEEF) false
        = "\x7b heap:\"deadbeefh\" \x7d".toList
    ∧ dvalue_print (fun _ => []) (pointer_value DVALUE_HEAPPTR 4 0xDEADBEEF) false
        ≠ "\x7bheap:\"deadbeefh\"\x7d".toList := by
  decide

/-- C16, amended: for every HEAPPTR, PTR or LIGHTFUNC value, and OBJ in verbose
mode, of width `w` in `{4, 8}` and address `a`, the text `dvalue_print` produces
is an opening brace, a space, the kind (`heap`, `ptr`, `lightfunc`, `obj`), a
colon, a double quote, `a` in lowercase hexadecimal padded with zeros to
`2 * w` digits, `h`, a double quote, a space and a closing brace; in
non-verbose mode an OBJ prints as an opening brace, three dots and a closing
brace. -/
theorem print_pointer_format (fmt_g : Nat → List Char) (w a : Nat) (is_verbose : Bool)
    (hw : w = 4 ∨ w = 8) (ha : a < 256 ^ w) :
    dvalue_print fmt_g (pointer_value DVALUE_HEAPPTR w a) is_verbose
        = "\x7b heap:\"".toList ++ hex_padded (2 * w) a ++ "h\" \x7d".toList
    ∧ dvalue_print fmt_g (pointer_value DVALUE_PTR w a) is_verbose
        = "\x7b ptr:\"".toList ++ hex_padded (2 * w) a ++ "h\" \x7d".toList
    ∧ dvalue_print fmt_g (pointer_value DVALUE_LIGHTFUNC w a) is_verbose
        = "\x7b lightfunc:\"".toList ++ hex_padded (2 * w) a ++ "h\" \x7d".toList
    ∧ dvalue_print fmt_g (pointer_value DVALUE_OBJ w a) true
        = "\x7b obj:\"".toList ++ hex_padded (2 * w) a ++ "h\" \x7d".toList
    ∧ dvalue_print fmt_g (pointer_value DVALUE_OBJ w a) false = "\x7b...\x7d".toList
    ∧ (hex_padded (2 * w) a).length = 2 * w := by
  have hp := print_duktape_ptr_eq w a hw ha
  have e1 : dvalue_as_ptr (pointer_value DVALUE_HEAPPTR w a) = { addr := a, size := w } := rfl
  have e2 : dvalue_as_ptr (pointer_value DVALUE_PTR w a) = { addr := a, size := w } := rfl
  have e3 : dvalue_as_ptr (pointer_value DVALUE_LIGHTFUNC w a) = { addr := a, size := w } := rfl
  have e4 : dvalue_as_ptr (pointer_value DVALUE_OBJ w a) = { addr := a, size := w } := rfl
  have t1 : dvalue_tag (pointer_value DVALUE_HEAPPTR w a) = DVALUE_HEAPPTR := rfl
  have t2 : dvalue_tag (pointer_value DVALUE_PTR w a) = DVALUE_PTR := rfl
  have t3 : dvalue_tag (pointer_value DVALUE_LIGHTFUNC w a) = DVALUE_LIGHTFUNC := rfl
  have t4 : dvalue_tag (pointer_value DVALUE_OBJ w a) = DVALUE_OBJ := rfl
  refine ⟨?_, ?_, ?_, ?_, ?_, hex_padded_length _ _⟩
  · simp only [dvalue_print, t1, e1, hp]
    simp only [List.append_assoc]
    rfl
  · simp only [dvalue_print, t2, e2, hp]
    simp only [List.append_assoc]
    rfl
  · simp only [dvalue_print, t3, e3, hp]
    simp only [List.append_assoc]
    rfl
  · simp only [dvalue_print, t4, e4, hp]
    simp only [List.append_assoc]
    rfl
  · simp only [dvalue_print, t4]
    rfl

theorem print_pointer_format_witness :
    dvalue_print (fun _ => []) (pointer_value DVALUE_PTR 8 0xDEADBEEF) false
        = "\x7b ptr:\"".toList ++ hex_padded (2 * 8) 0xDEADBEEF ++ "h\" \x7d".toList
    ∧ hex_padded (2 * 8) 0xDEADBEEF = "00000000deadbeef".toList :=
  ⟨(print_pointer_format (fun _ => []) 8 0xDEADBEEF false (by decide) (by decide)).2.1,
   by decide⟩

/-- C17, as the claim states it, fails: the STRING with payload `a"b` and a
newline is printed with the double quote and the newline as they are, between
two double quotes; nothing is escaped. -/
theorem print_string_is_raw :
    dvalue_print (fun _ => []) (buffer_value DVALUE_STRING [0x61, 0x22, 0x62, 0x0A]) false
        = "\"a\"b\n\"".toList := by
  decide

/-- C17, amended: for every STRING value with payload `p`, `dvalue_print`
produces a double quote, the bytes of `p` before its first zero byte exactly as
they are, and a double quote; when `p` holds no zero byte that is the whole
payload. No byte is replaced by an escape sequence. -/
theorem print_string_format (fmt_g : Nat → List Char) (v : dvalue) (p : List Nat)
    (is_verbose : Bool) (ht : v.tag = DVALUE_STRING) (hd : v.buffer.data = p ++ [0]) :
    dvalue_print fmt_g v is_verbose
        = "\"".toList ++ (p.take (strlen p)).map Char.ofNat ++ "\"".toList
    ∧ ((∀ b ∈ p, b ≠ 0) →
        dvalue_print fmt_g v is_verbose = "\"".toList ++ p.map Char.ofNat ++ "\"".toList) := by
  have hs : printf_s v.buffer.data = (p.take (strlen p)).map Char.ofNat := by
    have h1 : (p ++ [0]).take (strlen (p ++ [0])) = p.take (strlen p) := by
      rw [strlen_append_zero, List.take_append_of_le_length (strlen_le p)]
    have h2 : ∀ l : List Nat, l.takeWhile (fun b => b ≠ 0) = l.take (strlen l) := by
      intro l
      induction l with
      | nil => rfl
      | cons x xs ih =>
        unfold strlen at ih ⊢
        by_cases hx : x = 0
        · subst hx
          simp
        · rw [List.takeWhile_cons_of_pos (by simpa using hx), List.length_cons,
            List.take_succ_cons, ← ih]
    rw [printf_s, hd, h2, h1]
  have ht2 : dvalue_tag v = DVALUE_STRING := ht
  have hmain : dvalue_print fmt_g v is_verbose
      = "\"".toList ++ (p.take (strlen p)).map Char.ofNat ++ "\"".toList := by
    simp only [dvalue_print, ht2, hs]
    rfl
  refine ⟨hmain, ?_⟩
  intro hnz
  rw [hmain, strlen_of_nonzero p hnz, List.take_length]

theorem print_string_format_witness :
    dvalue_print (fun _ => []) (buffer_value DVALUE_STRING [0x68, 0x69]) true
        = "\"".toList ++ [0x68, 0x69].map Char.ofNat ++ "\"".toList
    ∧ "\"".toList ++ [0x68, 0x69].map Char.ofNat ++ "\"".toList = "\"hi\"".toList :=
  ⟨(print_string_format (fun _ => []) (buffer_value DVALUE_STRING [0x68, 0x69]) [0x68, 0x69]
      true rfl rfl).2 (by decide), by decide⟩

/-! ## Command line -/

theorem parse_short_args_all_c :
    ∀ (l : List Char) (have_target : Bool), (∀ c ∈ l, c = 'c') →
      ∃ have_target1, parse_short_args l have_target = .ok have_target1 := by
  intro l
  induction l with
  | nil => intro ht _; exact ⟨ht, rfl⟩
  | cons c cs ih =>
    intro ht h
    have hc : c = 'c' := h c (by simp)
    obtain ⟨ht1, h1⟩ := ih true (fun x hx => h x (by simp [hx]))
    exact ⟨ht1, by rw [parse_short_args, if_pos hc, h1]⟩

theorem parse_short_args_rejects :
    ∀ (l : List Char) (have_target : Bool), (∃ c ∈ l, c ≠ 'c') →
      ∃ c, c ∈ l ∧ c ≠ 'c' ∧ parse_short_args l have_target = .error c := by
  intro l
  induction l with
  | nil => intro ht h; obtain ⟨c, hc, _⟩ := h; simp at hc
  | cons x xs ih =>
    intro ht h
    by_cases hx : x = 'c'
    · obtain ⟨c, hc, hne⟩ := h
      have hcx : c ∈ xs := by
        rcases List.mem_cons.mp hc with h1 | h1
        · exact absurd (h1 ▸ hx) hne
        · exact h1
      obtain ⟨d, hd, hdne, hp⟩ := ih true ⟨c, hcx, hne⟩
      exact ⟨d, by simp [hd], hdne, by rw [parse_short_args, if_pos hx, hp]⟩
    · exact ⟨x, by simp, hx, by rw [parse_short_args, if_neg hx]⟩

/-- Arguments that are accepted change only the path and `have_target`; the
loop goes on with the arguments after them. -/
theorem parse_args_accepted :
    ∀ (pre : List (List Char)), (∀ a ∈ pre, accepted a) →
      ∀ (rest : List (List Char)) (path : Option (List Char)) (have_target : Bool),
        ∃ path1 have_target1,
          parse_args (pre ++ rest) path have_target = parse_args rest path1 have_target1 := by
  intro pre
  induction pre with
  | nil => intro _ rest path ht; exact ⟨path, ht, rfl⟩
  | cons a as ih =>
    intro h rest path ht
    have ha : accepted a := h a (by simp)
    have has : ∀ x ∈ as, accepted x := fun x hx => h x (by simp [hx])
    rcases ha with hc | ⟨h2, hd, hall⟩ | hp
    · subst hc
      obtain ⟨p1, t1, e⟩ := ih has rest path true
      exact ⟨p1, t1, by rw [List.cons_append, parse_args]; simpa using e⟩
    · obtain ⟨t0, e0⟩ := parse_short_args_all_c (a.drop 1).reverse ht
        (fun c hc => hall c (List.mem_reverse.mp hc))
      obtain ⟨p1, t1, e⟩ := ih has rest path t0
      exact ⟨p1, t1, by rw [List.cons_append, parse_args, if_neg h2, if_pos hd, e0]; exact e⟩
    · have h2 : a.take 2 ≠ ['-', '-'] := by
        intro h2
        apply hp
        cases a with
        | nil => simp at h2
        | cons x xs =>
          cases xs with
          | nil => simp at h2
          | cons y ys =>
            simp only [List.take_succ_cons, List.cons.injEq] at h2
            simp [h2.1]
      obtain ⟨p1, t1, e⟩ := ih has rest (some a) true
      exact ⟨p1, t1, by rw [List.cons_append, parse_args, if_neg h2, if_neg hp]; exact e⟩

theorem parse_args_informational (info : List Char) (act : action)
    (post : List (List Char)) (path : Option (List Char)) (have_target : Bool)
    (hi : informational info = some act) :
    parse_args (info :: post) path have_target
      = { cmdline := none, retval := EXIT_SUCCESS, printed := [act] } := by
  unfold informational at hi
  by_cases h1 : info = "--help".toList
  · subst h1
    simp only [if_true, Option.some.injEq] at hi
    subst hi
    rfl
  · rw [if_neg h1] at hi
    by_cases h2 : info = "--version".toList
    · subst h2
      simp only [if_true, Option.some.injEq] at hi
      subst hi
      rfl
    · rw [if_neg h2] at hi
      by_cases h3 : info = "--explode".toList
      · subst h3
        simp only [if_true, Option.some.injEq] at hi
        subst hi
        rfl
      · rw [if_neg h3] at hi
        exact absurd hi (by simp)

/-- C19: for every argument vector in which `--help`, `--version` or
`--explode` comes after accepted arguments only, `parse_cmdline` returns NULL
with `EXIT_SUCCESS` (0) stored as exit status, having printed the usage, the
banner or the quote, and `main` returns 0 having done nothing else: it starts
no engine and makes no attempt to attach, whatever arguments follow. -/
theorem informational_exit (prog info : List Char) (pre post : List (List Char))
    (act : action) (attach_ok : Bool)
    (hpre : ∀ a ∈ pre, accepted a) (hi : informational info = some act) :
    parse_cmdline (prog :: (pre ++ info :: post))
        = { cmdline := none, retval := 0, printed := [act] }
    ∧ ssj_main (prog :: (pre ++ info :: post)) attach_ok = (0, [act])
    ∧ (act = action.usage ∨ act = action.banner true true ∨ act = action.cell_quote) := by
  have hp : parse_cmdline (prog :: (pre ++ info :: post))
      = { cmdline := none, retval := 0, printed := [act] } := by
    obtain ⟨p1, t1, e⟩ := parse_args_accepted pre hpre (info :: post) none false
    simp only [parse_cmdline, List.drop_succ_cons, List.drop_zero]
    rw [e, parse_args_informational info act post p1 t1 hi]
  refine ⟨hp, ?_, ?_⟩
  · simp only [ssj_main, hp]
  · unfold informational at hi
    split_ifs at hi <;> simp_all

theorem informational_exit_witness :
    ssj_main ["ssj".toList, "-c".toList, "game".toList, "--version".toList, "--bogus".toList]
      false = (0, [action.banner true true]) :=
  (informational_exit "ssj".toList "--version".toList ["-c".toList, "game".toList]
    ["--bogus".toList] (action.banner true true) false (by decide) (by decide)).2.1

/-- C18, as the claim states it, fails: `ssj -x` exits with code 1 and
`ssj --bogus` with code 0; neither exits with code 2. -/
theorem unknown_option_exit_codes :
    ssj_main ["ssj".toList, "-x".toList] true = (1, [action.unknown_short 'x'])
    ∧ ssj_main ["ssj".toList, "--bogus".toList] true
        = (0, [action.unknown_long "--bogus".toList]) := by
  decide

/-- C18, amended: for every argument vector in which the first argument that is
not accepted is a short-option argument with a letter other than `c`, `ssj`
prints the unknown-option error for such a letter, neither starts the engine
nor attaches, and exits with code 1 (`EXIT_FAILURE`); when it is an unrecognised
long option, `ssj` prints the unknown-option error for it and neither starts
the engine nor attaches. -/
theorem unknown_option_exit (prog bad : List Char) (pre post : List (List Char))
    (attach_ok : Bool) (hpre : ∀ a ∈ pre, accepted a) :
    (bad.take 2 ≠ ['-', '-'] → bad.head? = some '-' → (∃ c ∈ bad.drop 1, c ≠ 'c') →
      ∃ c, c ∈ bad.drop 1 ∧ c ≠ 'c'
        ∧ ssj_main (prog :: (pre ++ bad :: post)) attach_ok = (1, [action.unknown_short c]))
    ∧ (bad.take 2 = ['-', '-'] → informational bad = none → bad ≠ "--connect".toList →
        (ssj_main (prog :: (pre ++ bad :: post)) attach_ok).2 = [action.unknown_long bad]) := by
  obtain ⟨p1, t1, e⟩ := parse_args_accepted pre hpre (bad :: post) none false
  constructor
  · intro h2 hd hex
    obtain ⟨c, hc, hne, hp⟩ := parse_short_args_rejects (bad.drop 1).reverse t1
      (by obtain ⟨c, hc, hne⟩ := hex; exact ⟨c, List.mem_reverse.mpr hc, hne⟩)
    refine ⟨c, List.mem_reverse.mp hc, hne, ?_⟩
    have hq : parse_cmdline (prog :: (pre ++ bad :: post))
        = { cmdline := none, retval := 1, printed := [action.unknown_short c] } := by
      simp only [parse_cmdline, List.drop_succ_cons, List.drop_zero]
      rw [e, parse_args, if_neg h2, if_pos hd, hp]
    simp only [ssj_main, hq]
  · intro h2 hinf hcon
    have hq : parse_cmdline (prog :: (pre ++ bad :: post))
        = { cmdline := none, retval := 0, printed := [action.unknown_long bad] } := by
      unfold informational at hinf
      have n1 : bad ≠ "--help".toList := by
        intro h; rw [if_pos h] at hinf; simp at hinf
      rw [if_neg n1] at hinf
      have n2 : bad ≠ "--version".toList := by
        intro h; rw [if_pos h] at hinf; simp at hinf
      rw [if_neg n2] at hinf
      have n3 : bad ≠ "--explode".toList := by
        intro h; rw [if_pos h] at hinf; simp at hinf
      simp only [parse_cmdline, List.drop_succ_cons, List.drop_zero]
      rw [e, parse_args, if_pos h2, if_neg n1, if_neg n2, if_neg n3, if_neg hcon]
    simp only [ssj_main, hq]

theorem unknown_option_exit_witness :
    (∃ c, c ∈ "-cx".toList.drop 1 ∧ c ≠ 'c'
      ∧ ssj_main ("ssj".toList :: (["game".toList] ++ "-cx".toList :: ["--help".toList])) true
          = (1, [action.unknown_short c]))
    ∧ (ssj_main ("ssj".toList :: (["game".toList] ++ "--bogus".toList :: [])) true).2
        = [action.unknown_long "--bogus".toList] :=
  ⟨(unknown_option_exit "ssj".toList "-cx".toList ["game".toList] ["--help".toList] true
      (by decide)).1 (by decide) (by decide) (by decide),
   (unknown_option_exit "ssj".toList "--bogus".toList ["game".toList] [] true
      (by decide)).2 (by decide) (by decide) (by decide)⟩

end Ssj

/-! # Engine: frame pacing and script runner -/

namespace Minisphere

/-- C20 on the code: starting from `s_frame_skips = 0` and
`g_skip_frame = false`, seven calls of `begin_frame` that each find the clock
past the next frame time leave `s_frame_skips` at 6, above `MAX_FRAME_SKIPS`;
the eighth call flips again. -/
theorem frame_skips_reach_six :
    (run_frames initial_frame_state (List.replicate 7 late_frame)).s_frame_skips = 6
    ∧ MAX_FRAME_SKIPS < (run_frames initial_frame_state (List.replicate 7 late_frame)).s_frame_skips
    ∧ (run_frames initial_frame_state (List.replicate 8 late_frame)).s_frame_skips = 0 := by
  decide

/-- What every `begin_frame` call keeps: at most 6 skips counted, at most 5
while the next frame is still to be skipped. -/
def skips_bounded (st : frame_state) : Prop :=
  st.s_frame_skips ≤ 6 ∧ (st.g_skip_frame = true → st.s_frame_skips ≤ 5)

theorem begin_frame_keeps_bound (st : frame_state) (inp : frame_input)
    (h : skips_bounded st) : skips_bounded (begin_frame st inp).1 := by
  obtain ⟨h6, h5⟩ := h
  unfold skips_bounded begin_frame
  by_cases hs : st.g_skip_frame = true
  · have h7 : st.s_frame_skips ≤ 5 := h5 hs
    by_cases hf : inp.framerate > 0 <;> by_cases he : inp.events_ok = true <;>
      by_cases hp : inp.poll_due = true <;> by_cases hl : inp.is_late = true <;>
      by_cases hk : st.s_frame_skips < MAX_FRAME_SKIPS <;>
      simp [hf, he, hs, hp, hl, hk] <;> simp only [MAX_FRAME_SKIPS] at hk <;> omega
  · by_cases hf : inp.framerate > 0 <;> by_cases he : inp.events_ok = true <;>
      by_cases hp : inp.poll_due = true <;> by_cases hl : inp.is_late = true <;>
      by_cases hk : st.s_frame_skips < MAX_FRAME_SKIPS <;>
      simp [hf, he, hs, hp, hl, hk] <;> simp only [MAX_FRAME_SKIPS] at hk <;> omega

/-- After any sequence of `begin_frame` calls from the initial state,
`s_frame_skips` is at most 6. -/
theorem frame_skips_le_six (inputs : List frame_input) :
    (run_frames initial_frame_state inputs).s_frame_skips ≤ 6 := by
  have hgen : ∀ (l : List frame_input) (st : frame_state), skips_bounded st →
      skips_bounded (run_frames st l) := by
    intro l
    induction l with
    | nil => intro st h; exact h
    | cons x xs ih =>
      intro st h
      exact ih _ (begin_frame_keeps_bound st x h)
  exact (hgen inputs initial_frame_state (by unfold skips_bounded; decide)).1

/-- C21, as the claim states it, fails: on a script with `refcount = 1` and
`is_in_use = false`, when the called code throws without touching the record,
`run_script` does not return to its caller and the record is left with
`is_in_use = true` and `refcount = 2`. -/
theorem run_script_throw_not_restored :
    run_script (some { refcount := 1, is_in_use := false, id := 7 }) false
        (fun s => call_result.thrown s)
      = { script := some { refcount := 2, is_in_use := true, id := 7 },
          calls := [{ refcount := 2, is_in_use := true, id := 7 }],
          returned := false } := by
  decide

/-- C21, amended: for a non-NULL script, when `is_in_use` is set and
`allow_reentry` is not, `run_script` makes no call and leaves the record as it
is. Otherwise it makes exactly one call, on the record with `is_in_use` set and
the reference count raised by one, however that call ends; when the call
returns, `run_script` returns with the record the called code left, `is_in_use`
put back to its value on entry and one reference dropped, so that if the called
code left the record alone and the reference count was at least 1 on entry, the
record afterwards is the record on entry (same `refcount`, `is_in_use` and
`id`). On NULL it does nothing. -/
theorem run_script_guard (s : script_t) (allow_reentry : Bool)
    (duk_call : script_t → call_result) :
    (s.is_in_use = true → allow_reentry = false →
      run_script (some s) allow_reentry duk_call
        = { script := some s, calls := [], returned := true })
    ∧ (¬ (s.is_in_use = true ∧ allow_reentry = false) →
        (run_script (some s) allow_reentry duk_call).calls
            = [{ ref_script s with is_in_use := true }]
        ∧ ∀ s1, duk_call { ref_script s with is_in_use := true } = call_result.returned s1 →
            run_script (some s) allow_reentry duk_call
                = { script := free_script (some { s1 with is_in_use := s.is_in_use }),
                    calls := [{ ref_script s with is_in_use := true }],
                    returned := true }
            ∧ (s1 = { ref_script s with is_in_use := true } →
                1 ≤ s.refcount → s.refcount < 2 ^ 32 →
                (run_script (some s) allow_reentry duk_call).script = some s))
    ∧ run_script none allow_reentry duk_call
        = { script := none, calls := [], returned := true } := by
  refine ⟨?_, ?_, rfl⟩
  · intro h1 h2
    simp [run_script, h1, h2]
  · intro hn
    have hc : (s.is_in_use && !allow_reentry) = false := by
      cases hu : s.is_in_use <;> cases ha : allow_reentry <;> simp_all
    constructor
    · cases hd : duk_call { ref_script s with is_in_use := true } <;>
        simp [run_script, hc, hd]
    · intro s1 hd
      have hr : run_script (some s) allow_reentry duk_call
          = { script := free_script (some { s1 with is_in_use := s.is_in_use }),
              calls := [{ ref_script s with is_in_use := true }],
              returned := true } := by
        simp [run_script, hc, hd]
      refine ⟨hr, ?_⟩
      intro hid hlo hhi
      rw [hr, hid]
      obtain ⟨rc, u, id⟩ := s
      simp only at hlo hhi
      have e : ((rc + 1) % 2 ^ 32 + 2 ^ 32 - 1) % 2 ^ 32 = rc := by omega
      simp only [free_script, ref_script, e]
      rw [if_pos (by omega)]

theorem run_script_guard_witness :
    run_script (some { refcount := 1, is_in_use := true, id := 7 }) false
        (fun s => call_result.returned s)
      = { script := some { refcount := 1, is_in_use := true, id := 7 }, calls := [],
          returned := true }
    ∧ run_script (some { refcount := 3, is_in_use := false, id := 7 }) false
        (fun s => call_result.returned { s with refcount := s.refcount - 1 })
      = { script := free_script (some { refcount := 3, is_in_use := false, id := 7 }),
          calls := [{ refcount := 4, is_in_use := true, id := 7 }],
          returned := true }
    ∧ (run_script (some { refcount := 1, is_in_use := false, id := 7 }) false
        (fun s => call_result.returned s)).script
      = some { refcount := 1, is_in_use := false, id := 7 } :=
  ⟨(run_script_guard { refcount := 1, is_in_use := true, id := 7 } false
      (fun s => call_result.returned s)).1 rfl rfl,
   (((run_script_guard { refcount := 3, is_in_use := false, id := 7 } false
      (fun s => call_result.returned { s with refcount := s.refcount - 1 })).2.1
      (by decide)).2 { refcount := 3, is_in_use := true, id := 7 } rfl).1,
   (((run_script_guard { refcount := 1, is_in_use := false, id := 7 } false
      (fun s => call_result.returned s)).2.1
      (by decide)).2 { refcount := 2, is_in_use := true, id := 7 } rfl).2 rfl (by decide)
      (by decide)⟩

end Minisphere

/-! # Build tool: `Tool.build` -/

namespace Cell

/-- C22 on the code: `js_Tool_build` raises the TypeError
"array expected (argument 2)" whenever its second argument is an array, an
array of Target objects included, and does not raise it when the second
argument is not an array: on `undefined` it returns a new Target without
sources. -/
theorem tool_build_rejects_arrays (path_filename : String → String) (tool : Nat)
    (out_path : String) (items : List js_prim) :
    js_Tool_build path_filename (some tool) (.prim (.string out_path)) (.array items)
        = .error (js_error.type_error "array expected (argument 2)")
    ∧ js_Tool_build path_filename (some tool) (.prim (.string out_path))
          (.array [js_prim.target 5, js_prim.target 6])
        = .error (js_error.type_error "array expected (argument 2)")
    ∧ js_Tool_build path_filename (some tool) (.prim (.string out_path)) (.prim .undefined)
        = .ok { name := path_filename out_path, path := out_path, tool := tool,
                sources := [] } := by
  refine ⟨rfl, rfl, rfl⟩

end Cell
